import Mathlib

/-!
Verification of the exec approval coordination engine of openclaw.

The RPC protocol handlers (`exec.approval.request`, `exec.approval.waitDecision`,
`exec.approval.resolve`) are embedded from `src/gateway/server-methods/exec-approval.ts`,
and the chat approve command parser from the approve command handler module.
The approval registry (`ExecApprovalManager`) is not part of the available sources,
so its operations are modelled from the specification (sections 3, 4.2 and 4.3):
each such definition carries a doc comment starting with `Modelled from the spec:`.

Asynchrony is embedded by splitting every await point: each handler is a pure
function computing everything up to the await (responses already sent, state
changes, broadcast/forward intents, and which decision future it awaits), and a
separate pure function maps the eventually delivered decision to the final
response.  Timers are embedded as an explicit `expireRecord` transition that
fires at most once per record, guarded by the pending status.
-/

/-- The closed three-value decision tag; `none` at the `Option` level is the
timeout sentinel (spec section 3: decision is `allow-once | allow-always | deny | null`). -/
inductive ExecApprovalDecision where
  | allowOnce
  | allowAlways
  | deny
deriving DecidableEq

/-- Record lifecycle status (spec section 3: `pending | resolved | expired`). -/
inductive ApprovalStatus where
  | pending
  | resolved
  | expired
deriving DecidableEq

/-- The immutable request payload carried by an approval
(`request` object built in the `exec.approval.request` handler). -/
structure ApprovalRequest where
  command : String
  cwd : Option String
  host : Option String
  security : Option String
  ask : Option String
  agentId : Option String
  resolvedPath : Option String
  sessionKey : Option String
deriving DecidableEq

/-- Identity of the submitting connection (spec section 3, `Requester`). -/
structure Requester where
  clientId : Option String
  deviceId : Option String
deriving DecidableEq

/-- One approval record owned by the registry (spec section 3, `ApprovalRecord`). -/
structure ApprovalRecord where
  id : String
  request : ApprovalRequest
  fingerprint : String
  createdAtMs : Nat
  expiresAtMs : Nat
  timeoutMs : Nat
  status : ApprovalStatus
  decision : Option ExecApprovalDecision
  resolvedBy : Option String
  resolvedAtMs : Option Nat
  requestedByConnId : Option String
  requestedByDeviceId : Option String
  requestedByClientId : Option String
deriving DecidableEq

/-- Modelled from the spec: the registry owns the map of records; tracked records
are the pending ones plus terminal ones still inside the grace period (spec
section 4.2).  GC removes a record from this list. -/
structure ManagerState where
  records : List ApprovalRecord
deriving DecidableEq

/-- The connection data the handlers read off the gateway client object
(`client?.connId`, `client?.connect?.client?.id`, `client?.connect?.device?.id`,
`client?.connect?.client?.displayName`). -/
structure ClientInfo where
  connId : Option String
  clientId : Option String
  deviceId : Option String
  displayName : Option String
deriving DecidableEq

/-- Public read-only view of a record (spec section 4.2, `getSnapshot`). -/
structure Snapshot where
  id : String
  request : ApprovalRequest
  createdAtMs : Nat
  expiresAtMs : Nat
  status : ApprovalStatus
  decision : Option ExecApprovalDecision
deriving DecidableEq

def toSnapshot (r : ApprovalRecord) : Snapshot :=
  { id := r.id
    request := r.request
    createdAtMs := r.createdAtMs
    expiresAtMs := r.expiresAtMs
    status := r.status
    decision := r.decision }

/-- Embedding of JavaScript `String.prototype.trim` on the character list. -/
def trimChars (l : List Char) : List Char :=
  ((l.dropWhile Char.isWhitespace).reverse.dropWhile Char.isWhitespace).reverse

/-- Embedding of JavaScript `String.prototype.trim`. -/
def jsTrim (s : String) : String := ⟨trimChars s.data⟩

/-- Embedding of JavaScript `String.prototype.toLowerCase` (ASCII). -/
def lowerStr (s : String) : String := ⟨s.data.map Char.toLower⟩

def isHexDigit (c : Char) : Bool :=
  c.isDigit || ( 'a' ≤ c && c ≤ 'f') || ( 'A' ≤ c && c ≤ 'F')

/-- Embedding of `APPROVAL_ID_SLUG_PATTERN = /^[0-9a-f]\x7b8\x7d$/i` from
`exec-approval.ts`. -/
def isApprovalIdSlug (s : String) : Bool :=
  s.data.length == 8 && s.data.all isHexDigit

/-- Modelled from the spec: deterministic fingerprint over the normalized request
content plus requester identity (spec section 4.1); includes at least command,
cwd, host and the requester clientId/deviceId. -/
def fingerprintRequest (req : ApprovalRequest) (who : Requester) : String :=
  String.intercalate "|" [req.command, req.cwd.getD "", req.host.getD "",
    req.security.getD "", req.ask.getD "", req.agentId.getD "",
    req.resolvedPath.getD "", req.sessionKey.getD "",
    who.clientId.getD "", who.deviceId.getD ""]

/-- Modelled from the spec: `getSnapshot(id)` returns the read-only view of the
tracked record with that exact id, pending or within the grace period (spec
section 4.2); `none` once GC'd or never created. -/
def getSnapshot (st : ManagerState) (id : String) : Option Snapshot :=
  (st.records.find? (fun r => decide (r.id = id))).map toSnapshot

/-- Modelled from the spec: `getPendingByFingerprint(fp)` returns the single
pending record sharing that fingerprint (spec section 4.2). -/
def getPendingByFingerprint (st : ManagerState) (fp : String) : Option ApprovalRecord :=
  st.records.find? (fun r => decide (r.status = ApprovalStatus.pending ∧ r.fingerprint = fp))

/-- Modelled from the spec: `awaitDecision(id)` hands out a fresh decision future
when the id is tracked (pending or within the grace period) and signals
not-found otherwise (spec section 4.2).  The future is embedded as the id it
waits on; the delivered value is produced by the terminal transition. -/
def awaitDecision (st : ManagerState) (id : String) : Option String :=
  if (st.records.find? (fun r => decide (r.id = id))).isSome then some id else none

/-- Modelled from the spec: `findIdsByPrefix` returns all tracked ids (pending or
within the grace period) starting with the given short id, case-insensitive
(spec section 4.2). -/
def findIdsMatching (st : ManagerState) (short : String) : List String :=
  (st.records.filter
    (fun r => decide ((lowerStr short).data <+: (lowerStr r.id).data))).map (fun r => r.id)

/-- Modelled from the spec: `findOpenPendingIdsByPrefix` restricts the match to
records whose status is still pending (spec section 4.2). -/
def findOpenPendingIdsMatching (st : ManagerState) (short : String) : List String :=
  (st.records.filter
    (fun r => decide (r.status = ApprovalStatus.pending ∧
      (lowerStr short).data <+: (lowerStr r.id).data))).map (fun r => r.id)

/-- Modelled from the spec: `create(request, timeoutMs, explicitId?)` allocates a
fresh record: id taken from `explicitId` or generated, `createdAtMs = now`,
`expiresAtMs = now + timeoutMs`, status pending, decision unset (spec section 4.2). -/
def createRecord (request : ApprovalRequest) (timeoutMs : Nat) (explicitId : Option String)
    (now : Nat) (genId : String) : ApprovalRecord :=
  { id := explicitId.getD genId
    request := request
    fingerprint := ""
    createdAtMs := now
    expiresAtMs := now + timeoutMs
    timeoutMs := timeoutMs
    status := ApprovalStatus.pending
    decision := none
    resolvedBy := none
    resolvedAtMs := none
    requestedByConnId := none
    requestedByDeviceId := none
    requestedByClientId := none }

/-- Modelled from the spec: `register(record, timeoutMs, fingerprint)` inserts the
record into the id index and the fingerprint index and arms the expiry timer
(spec section 4.2); it protects the id uniqueness invariant, which is what the
`try/catch` around `manager.register` in the handler guards against. -/
def register (st : ManagerState) (record : ApprovalRecord) (fingerprint : String) :
    Except String ManagerState :=
  if (st.records.find? (fun r => decide (r.id = record.id))).isSome then
    Except.error "duplicate id"
  else
    Except.ok { records := st.records ++ [{ record with fingerprint := fingerprint }] }

/-- Updates every tracked record carrying the given id. -/
def updateById (l : List ApprovalRecord) (id : String)
    (f : ApprovalRecord → ApprovalRecord) : List ApprovalRecord :=
  l.map (fun r => if r.id = id then f r else r)

/-- Modelled from the spec: `resolve(id, decision, resolvedBy)` locates the record
by exact id; a record that is not currently pending makes it a no-op returning
false; on success it stores the decision, marks the record resolved, cancels the
timer and fulfils every outstanding future with the decision (spec section 4.2). -/
def resolveRecord (st : ManagerState) (id : String) (d : ExecApprovalDecision)
    (resolvedBy : Option String) (now : Nat) : Bool × ManagerState :=
  match st.records.find? (fun r => decide (r.id = id)) with
  | none => (false, st)
  | some r =>
    if r.status = ApprovalStatus.pending then
      (true, { records := updateById st.records id (fun q =>
        { q with
          status := ApprovalStatus.resolved
          decision := some d
          resolvedBy := resolvedBy
          resolvedAtMs := some now }) })
    else
      (false, st)

/-- Modelled from the spec: the expiry timer fire (spec section 4.3).  If the
record is still pending it performs the terminal transition to status expired
with decision `null` and fulfils all waiters with `null` (returned as
`some none`); if the record already became terminal the fire is a no-op
(returns `none`: nothing is delivered). -/
def expireRecord (st : ManagerState) (id : String) :
    ManagerState × Option (Option ExecApprovalDecision) :=
  match st.records.find? (fun r => decide (r.id = id)) with
  | none => (st, none)
  | some r =>
    if r.status = ApprovalStatus.pending then
      ({ records := updateById st.records id (fun q =>
        { q with
          status := ApprovalStatus.expired
          decision := none }) }, some none)
    else
      (st, none)

/-- Modelled from the spec: after the grace period a terminal record is removed
from the registry (spec section 3, lifecycle). -/
def gcRecord (st : ManagerState) (id : String) : ManagerState :=
  { records := st.records.filter (fun r => !decide (r.id = id)) }

/-- The error shapes the handlers report (all use `ErrorCodes.INVALID_REQUEST`);
an ambiguity error additionally carries the candidate id list in its details. -/
inductive RpcError where
  | invalidRequest (message : String) (details : Option (List String))
deriving DecidableEq

/-- The success payloads the handlers send. -/
inductive RespPayload where
  | accepted (id : String) (createdAtMs : Nat) (expiresAtMs : Nat)
  | finalDecision (id : String) (decision : Option ExecApprovalDecision)
      (createdAtMs : Nat) (expiresAtMs : Nat)
  | waitResult (id : String) (decision : Option ExecApprovalDecision)
      (createdAtMs : Option Nat) (expiresAtMs : Option Nat)
  | resolveOk
deriving DecidableEq

/-- One `respond(ok, payload, error)` call made by a handler. -/
inductive Resp where
  | ok (payload : RespPayload)
  | err (e : RpcError)
deriving DecidableEq

/-- The events pushed over `context.broadcast` and to the forwarder. -/
inductive GatewayEvent where
  | requested (id : String) (request : ApprovalRequest)
      (createdAtMs : Nat) (expiresAtMs : Nat)
  | resolved (id : String) (decision : ExecApprovalDecision)
      (resolvedBy : Option String) (ts : Nat)
deriving DecidableEq

/-- Modelled from the spec: the default timeout constant
`DEFAULT_EXEC_APPROVAL_TIMEOUT_MS` lives in `infra/exec-approvals.js`, outside the
available sources; the spec only says requests default to a fixed constant. -/
def DEFAULT_EXEC_APPROVAL_TIMEOUT_MS : Nat := 120000

/-- Validated params of `exec.approval.request`, as destructured by the handler. -/
structure ReqParams where
  id : Option String
  command : String
  cwd : Option String
  host : Option String
  security : Option String
  ask : Option String
  agentId : Option String
  resolvedPath : Option String
  sessionKey : Option String
  timeoutMs : Option Nat
  twoPhase : Option Bool
deriving DecidableEq

/-- The request object the handler builds from the params. -/
def reqOf (p : ReqParams) : ApprovalRequest :=
  { command := p.command
    cwd := p.cwd
    host := p.host
    security := p.security
    ask := p.ask
    agentId := p.agentId
    resolvedPath := p.resolvedPath
    sessionKey := p.sessionKey }

/-- The requester identity the handler reads off the client connection. -/
def requesterOf (client : ClientInfo) : Requester :=
  { clientId := client.clientId
    deviceId := client.deviceId }

/-- `typeof p.id === "string" && p.id.trim().length > 0 ? p.id.trim() : null`. -/
def explicitIdOf (p : ReqParams) : Option String :=
  match p.id with
  | some s => if 0 < (jsTrim s).data.length then some (jsTrim s) else none
  | none => none

/-- Everything the `exec.approval.request` handler does before (possibly)
awaiting the decision future: state change, responses already sent, broadcast
and forwarder intents, and which future it then awaits. -/
structure ReqSyncResult where
  state : ManagerState
  responses : List Resp
  broadcasts : List GatewayEvent
  forwards : List GatewayEvent
  awaitOn : Option (String × Nat × Nat)
deriving DecidableEq

def dupIdError : Resp :=
  Resp.err (RpcError.invalidRequest "approval id already pending" none)

def expiredError : Resp :=
  Resp.err (RpcError.invalidRequest "approval expired or not found" none)

/-- The fingerprint the request handler computes from params and client. -/
def requestFingerprint (p : ReqParams) (client : ClientInfo) : String :=
  fingerprintRequest (reqOf p) (requesterOf client)

/-- The record the request handler creates and decorates with requester
provenance before registering it. -/
def requestRecord (p : ReqParams) (client : ClientInfo) (now : Nat) (genId : String) :
    ApprovalRecord :=
  { createRecord (reqOf p) (p.timeoutMs.getD DEFAULT_EXEC_APPROVAL_TIMEOUT_MS)
      (explicitIdOf p) now genId with
    requestedByConnId := client.connId
    requestedByDeviceId := client.deviceId
    requestedByClientId := client.clientId }

/-- The pending record the dedup path would reuse: only consulted when no
explicit id was given. -/
def reuseCandidate (st : ManagerState) (p : ReqParams) (client : ClientInfo) :
    Option ApprovalRecord :=
  if (explicitIdOf p).isSome = true then none
  else getPendingByFingerprint st (requestFingerprint p client)

/-- The synchronous part of the `exec.approval.request` handler
(`exec-approval.ts`).  `now` stands for `Date.now()` and `genId` for the id the
registry would generate when no explicit id is supplied. -/
def execApprovalRequest (st : ManagerState) (p : ReqParams) (client : ClientInfo)
    (now : Nat) (genId : String) : ReqSyncResult :=
  if (explicitIdOf p).any (fun eid => (getSnapshot st eid).isSome) then
    { state := st
      responses := [dupIdError]
      broadcasts := []
      forwards := []
      awaitOn := none }
  else
    match reuseCandidate st p client with
    | some pending =>
      let pre := if p.twoPhase = some true then
        [Resp.ok (RespPayload.accepted pending.id pending.createdAtMs pending.expiresAtMs)]
      else []
      match awaitDecision st pending.id with
      | none =>
        { state := st
          responses := pre ++ [expiredError]
          broadcasts := []
          forwards := []
          awaitOn := none }
      | some _ =>
        { state := st
          responses := pre
          broadcasts := []
          forwards := []
          awaitOn := some (pending.id, pending.createdAtMs, pending.expiresAtMs) }
    | none =>
      let record := requestRecord p client now genId
      match register st record (requestFingerprint p client) with
      | Except.error msg =>
        { state := st
          responses := [Resp.err (RpcError.invalidRequest
            ("registration failed: " ++ msg) none)]
          broadcasts := []
          forwards := []
          awaitOn := none }
      | Except.ok st1 =>
        let ev := GatewayEvent.requested record.id record.request
          record.createdAtMs record.expiresAtMs
        { state := st1
          responses := if p.twoPhase = some true then
            [Resp.ok (RespPayload.accepted record.id record.createdAtMs record.expiresAtMs)]
          else []
          broadcasts := [ev]
          forwards := [ev]
          awaitOn := some (record.id, record.createdAtMs, record.expiresAtMs) }

/-- The final `respond` of the request handler once the awaited decision future
delivers (`decision` is `none` on timeout). -/
def finalRequestResponse (a : String × Nat × Nat)
    (d : Option ExecApprovalDecision) : Resp :=
  Resp.ok (RespPayload.finalDecision a.1 d a.2.1 a.2.2)

/-- The full response sequence a request caller observes once the decision
future (if any) has delivered `d`. -/
def totalResponses (r : ReqSyncResult) (d : Option ExecApprovalDecision) : List Resp :=
  r.responses ++ (match r.awaitOn with
    | some a => [finalRequestResponse a d]
    | none => [])

/-- Outcome of the synchronous part of `exec.approval.waitDecision`: either an
error response was sent, or the handler captured a snapshot and awaits the
decision future of `resolvedId`. -/
inductive WaitOutcome where
  | failed (r : Resp)
  | waiting (resolvedId : String) (snapshot : Option Snapshot)
deriving DecidableEq

def idRequiredError : Resp :=
  Resp.err (RpcError.invalidRequest "id is required" none)

def ambiguousError (raw : String) (candidates : List String) : Resp :=
  Resp.err (RpcError.invalidRequest ("ambiguous approval id prefix " ++ raw) (some candidates))

/-- The synchronous part of the `exec.approval.waitDecision` handler
(`exec-approval.ts`): id validation, short-id resolution against all tracked
ids, and the snapshot capture that happens before the await. -/
def execApprovalWaitSync (st : ManagerState) (pid : Option String) : WaitOutcome :=
  let rawId := match pid with
    | some s => jsTrim s
    | none => ""
  if rawId = "" then WaitOutcome.failed idRequiredError
  else
    let resolvedId :=
      if (awaitDecision st rawId).isSome then rawId
      else if isApprovalIdSlug rawId = false then rawId
      else match findIdsMatching st rawId with
        | [m] => m
        | _ => rawId
    match awaitDecision st resolvedId with
    | none =>
      if isApprovalIdSlug rawId = true then
        let ms := findIdsMatching st rawId
        if 1 < ms.length then WaitOutcome.failed (ambiguousError rawId ms)
        else WaitOutcome.failed expiredError
      else WaitOutcome.failed expiredError
    | some _ => WaitOutcome.waiting resolvedId (getSnapshot st resolvedId)

/-- The final `respond` of the waitDecision handler: built from the captured
snapshot alone (the record may have been GC'd while awaiting). -/
def waitDeliver (resolvedId : String) (snap : Option Snapshot)
    (d : Option ExecApprovalDecision) : Resp :=
  Resp.ok (RespPayload.waitResult resolvedId d
    (snap.map (fun s => s.createdAtMs)) (snap.map (fun s => s.expiresAtMs)))

/-- Result of the `exec.approval.resolve` handler (it has no await point). -/
structure ResolveResult where
  state : ManagerState
  responses : List Resp
  broadcasts : List GatewayEvent
  forwards : List GatewayEvent
deriving DecidableEq

/-- The three valid decision tags, as checked by the resolve handler. -/
def parseDecision (s : String) : Option ExecApprovalDecision :=
  if s = "allow-once" then some ExecApprovalDecision.allowOnce
  else if s = "allow-always" then some ExecApprovalDecision.allowAlways
  else if s = "deny" then some ExecApprovalDecision.deny
  else none

/-- The wire tag of a decision. -/
def decisionTag : ExecApprovalDecision → String
  | ExecApprovalDecision.allowOnce => "allow-once"
  | ExecApprovalDecision.allowAlways => "allow-always"
  | ExecApprovalDecision.deny => "deny"

/-- `client?.connect?.client?.displayName ?? client?.connect?.client?.id`. -/
def resolvedByOf (client : ClientInfo) : Option String :=
  match client.displayName with
  | some n => some n
  | none => client.clientId

def invalidDecisionError : Resp :=
  Resp.err (RpcError.invalidRequest "invalid decision" none)

def unknownApprovalError : Resp :=
  Resp.err (RpcError.invalidRequest "unknown approval id" none)

def resolveSuccess (st : ManagerState) (resolvedId : String) (d : ExecApprovalDecision)
    (resolvedBy : Option String) (now : Nat) : ResolveResult :=
  { state := st
    responses := [Resp.ok RespPayload.resolveOk]
    broadcasts := [GatewayEvent.resolved resolvedId d resolvedBy now]
    forwards := [GatewayEvent.resolved resolvedId d resolvedBy now] }

/-- The `exec.approval.resolve` handler (`exec-approval.ts`): decision tag
validation, exact-id resolve, then the short-id retry restricted to open
pending records. -/
def execApprovalResolve (st : ManagerState) (pid : String) (pdecision : String)
    (client : ClientInfo) (now : Nat) : ResolveResult :=
  match parseDecision pdecision with
  | none =>
    { state := st
      responses := [invalidDecisionError]
      broadcasts := []
      forwards := [] }
  | some decision =>
    let resolvedBy := resolvedByOf client
    let rawId := jsTrim pid
    let r1 := resolveRecord st rawId decision resolvedBy now
    if r1.1 = true then resolveSuccess r1.2 rawId decision resolvedBy now
    else if isApprovalIdSlug rawId = true then
      let ms := findOpenPendingIdsMatching st rawId
      match ms with
      | [m] =>
        let r2 := resolveRecord st m decision resolvedBy now
        if r2.1 = true then resolveSuccess r2.2 m decision resolvedBy now
        else
          { state := st
            responses := [unknownApprovalError]
            broadcasts := []
            forwards := [] }
      | [] =>
        { state := st
          responses := [unknownApprovalError]
          broadcasts := []
          forwards := [] }
      | _ :: _ :: _ =>
        { state := st
          responses := [ambiguousError rawId ms]
          broadcasts := []
          forwards := [] }
    else
      { state := st
        responses := [unknownApprovalError]
        broadcasts := []
        forwards := [] }

/-- Observable outcome of one full RPC run: the responses the caller received,
the broadcasts actually delivered to observers, and the internal error log. -/
structure RpcRunOutcome where
  responses : List Resp
  state : ManagerState
  delivered : List GatewayEvent
  logs : List String
deriving DecidableEq

/-- Modelled from the spec: `context.broadcast` is best-effort (`dropIfSlow`) and
may drop events without throwing, and the forwarder promise is chained with
`.catch` in the handler, so a rejection only produces a gateway error log.
`broadcastDelivered = false` stands for a dropped/failed broadcast and
`forwarderOk = false` for a rejected forwarder call. -/
def runExecApprovalRequest (st : ManagerState) (p : ReqParams) (client : ClientInfo)
    (now : Nat) (genId : String) (d : Option ExecApprovalDecision)
    (broadcastDelivered forwarderOk : Bool) : RpcRunOutcome :=
  let res := execApprovalRequest st p client now genId
  { responses := totalResponses res d
    state := res.state
    delivered := if broadcastDelivered then res.broadcasts else []
    logs := if forwarderOk then []
      else res.forwards.map (fun _ => "exec approvals: forward request failed") }

/-- Modelled from the spec: same best-effort treatment for the resolve handler
(`.catch` on `handleResolved`, `dropIfSlow` broadcast). -/
def runExecApprovalResolve (st : ManagerState) (pid : String) (pdecision : String)
    (client : ClientInfo) (now : Nat)
    (broadcastDelivered forwarderOk : Bool) : RpcRunOutcome :=
  let res := execApprovalResolve st pid pdecision client now
  { responses := res.responses
    state := res.state
    delivered := if broadcastDelivered then res.broadcasts else []
    logs := if forwarderOk then []
      else res.forwards.map (fun _ => "exec approvals: forward resolve failed") }

/-- `DECISION_ALIASES` from the approve command module, applied to an already
lowercased token. -/
def decisionAlias (s : String) : Option ExecApprovalDecision :=
  if s = "allow" then some ExecApprovalDecision.allowOnce
  else if s = "once" then some ExecApprovalDecision.allowOnce
  else if s = "allow-once" then some ExecApprovalDecision.allowOnce
  else if s = "allowonce" then some ExecApprovalDecision.allowOnce
  else if s = "always" then some ExecApprovalDecision.allowAlways
  else if s = "allow-always" then some ExecApprovalDecision.allowAlways
  else if s = "allowalways" then some ExecApprovalDecision.allowAlways
  else if s = "deny" then some ExecApprovalDecision.deny
  else if s = "reject" then some ExecApprovalDecision.deny
  else if s = "block" then some ExecApprovalDecision.deny
  else none

/-- Splits a character list at every dash, keeping empty pieces. -/
def splitDashAux : List Char → List Char → List (List Char)
  | [], acc => [acc.reverse]
  | c :: cs, acc =>
    if c = '-' then acc.reverse :: splitDashAux cs []
    else splitDashAux cs (c :: acc)

/-- Embedding of `APPROVAL_ID_PATTERN`, the 8-4-4-4-12 hexadecimal UUID shape
(case-insensitive) required by the chat approve command. -/
def isUuid (s : String) : Bool :=
  let parts := splitDashAux s.data []
  parts.map List.length == [8, 4, 4, 4, 12] && parts.all (fun p => p.all isHexDigit)

/-- Splits on whitespace runs dropping empty tokens, the embedding of
`rest.split(/\s+/).filter(Boolean)`. -/
def splitWsAux : List Char → List Char → List (List Char)
  | [], acc => if acc.isEmpty then [] else [acc.reverse]
  | c :: cs, acc =>
    if c.isWhitespace then
      if acc.isEmpty then splitWsAux cs []
      else acc.reverse :: splitWsAux cs []
    else splitWsAux cs (c :: acc)

def splitWsTokens (s : String) : List String :=
  (splitWsAux s.data []).map (fun l => ⟨l⟩)

def dropStr (s : String) (n : Nat) : String := ⟨s.data.drop n⟩

/-- `parseApprovalId` from the approve command module: trims, rejects blanks and
anything that is not a full UUID. -/
def parseApprovalId (raw : String) : Option String :=
  let id := jsTrim raw
  if id = "" then none
  else if isUuid id then some id else none

/-- The three-way result of `parseApproveCommand`: no command match (`null`), a
usage error, or a parsed id/decision pair. -/
inductive ParsedApprove where
  | noMatch
  | usageError (error : String)
  | parsed (id : String) (decision : ExecApprovalDecision)
deriving DecidableEq

def APPROVE_USAGE : String :=
  "Usage: approve <id> [allow-once|allow-always|deny] (aliases: accept, /approve, /accept)"

/-- The token-processing block of `parseApproveCommand`: a lone token must be a
UUID id (decision defaults to allow-once); two tokens are a decision alias and
an id in either order. -/
def parseApproveTokens : List String → ParsedApprove
  | [t0] =>
    match parseApprovalId t0 with
    | some id => ParsedApprove.parsed id ExecApprovalDecision.allowOnce
    | none => ParsedApprove.usageError APPROVE_USAGE
  | [t0, t1] =>
    match decisionAlias (lowerStr t0) with
    | some d =>
      match parseApprovalId t1 with
      | some id => ParsedApprove.parsed id d
      | none => ParsedApprove.usageError APPROVE_USAGE
    | none =>
      match decisionAlias (lowerStr t1) with
      | some d =>
        match parseApprovalId t0 with
        | some id => ParsedApprove.parsed id d
        | none => ParsedApprove.usageError APPROVE_USAGE
      | none => ParsedApprove.usageError APPROVE_USAGE
  | _ => ParsedApprove.usageError APPROVE_USAGE

/-- `parseApproveCommand` from the approve command module. -/
def parseApproveCommand (raw : String) : ParsedApprove :=
  let trimmed := jsTrim raw
  let lowered := lowerStr trimmed
  let restQ : Option String :=
    if "/approve".data <+: lowered.data then
      some (jsTrim (dropStr trimmed "/approve".data.length))
    else if "/accept".data <+: lowered.data then
      some (jsTrim (dropStr trimmed "/accept".data.length))
    else if lowered = "approve" ∨ "approve ".data <+: lowered.data then
      some (jsTrim (dropStr trimmed "approve".data.length))
    else if lowered = "accept" ∨ "accept ".data <+: lowered.data then
      some (jsTrim (dropStr trimmed "accept".data.length))
    else none
  match restQ with
  | none => ParsedApprove.noMatch
  | some rest =>
    if rest = "" then ParsedApprove.usageError APPROVE_USAGE
    else parseApproveTokens (splitWsTokens rest)

/-- The inputs `handleApproveCommand` consults before deciding to submit. -/
structure ApproveCmdInput where
  allowTextCommands : Bool
  commandBodyNormalized : String
  isAuthorizedSender : Bool
  isInternalChannel : Bool
  scopes : List String
deriving DecidableEq

/-- What `handleApproveCommand` does: nothing (`null` return), stop without
reply, reply with an error text, or submit `exec.approval.resolve` over the
gateway. -/
inductive ApproveAction where
  | noAction
  | stop
  | reply (text : String)
  | submitResolve (id : String) (decision : ExecApprovalDecision)
deriving DecidableEq

/-- `handleApproveCommand` from the approve command module, up to the gateway
call: the control flow deciding whether `exec.approval.resolve` is submitted. -/
def handleApproveCommand (inp : ApproveCmdInput) : ApproveAction :=
  if inp.allowTextCommands = false then ApproveAction.noAction
  else
    match parseApproveCommand inp.commandBodyNormalized with
    | ParsedApprove.noMatch => ApproveAction.noAction
    | ParsedApprove.usageError e =>
      if inp.isAuthorizedSender = false then ApproveAction.stop
      else ApproveAction.reply e
    | ParsedApprove.parsed id d =>
      if inp.isAuthorizedSender = false then ApproveAction.stop
      else if inp.isInternalChannel &&
          !(inp.scopes.contains "operator.approvals" || inp.scopes.contains "operator.admin") then
        ApproveAction.reply "approve requires operator.approvals for gateway clients."
      else ApproveAction.submitResolve id d

def fixtureRequest : ApprovalRequest :=
  { command := "rm -rf /tmp/x"
    cwd := some "/work"
    host := none
    security := none
    ask := none
    agentId := none
    resolvedPath := none
    sessionKey := none }

def fixtureClient : ClientInfo :=
  { connId := some "conn-1"
    clientId := some "client-1"
    deviceId := some "device-1"
    displayName := some "Alice" }

def fixtureRecord : ApprovalRecord :=
  { id := "cdc9d57c-f5fc-4cd1-8e3e-5edbe1bb5548"
    request := fixtureRequest
    fingerprint := "fp-1"
    createdAtMs := 100
    expiresAtMs := 150
    timeoutMs := 50
    status := ApprovalStatus.pending
    decision := none
    resolvedBy := none
    resolvedAtMs := none
    requestedByConnId := none
    requestedByDeviceId := none
    requestedByClientId := none }

def fixtureState : ManagerState := { records := [fixtureRecord] }

def graceRecord : ApprovalRecord :=
  { fixtureRecord with
    id := "e0e0e0e0-0000-4000-8000-000000000000"
    status := ApprovalStatus.resolved
    decision := some ExecApprovalDecision.deny
    resolvedBy := some "alice"
    resolvedAtMs := some 140 }

def graceState : ManagerState := { records := [graceRecord] }

def graceParams : ReqParams :=
  { id := some "e0e0e0e0-0000-4000-8000-000000000000"
    command := "ls"
    cwd := none
    host := none
    security := none
    ask := none
    agentId := none
    resolvedPath := none
    sessionKey := none
    timeoutMs := some 50
    twoPhase := none }

/-- The record inserted by a fresh (non-dedup) request. -/
def freshRecord (p : ReqParams) (client : ClientInfo) (now : Nat) (genId : String) :
    ApprovalRecord :=
  { createRecord (reqOf p) (p.timeoutMs.getD DEFAULT_EXEC_APPROVAL_TIMEOUT_MS) none now genId with
    fingerprint := fingerprintRequest (reqOf p) (requesterOf client)
    requestedByConnId := client.connId
    requestedByDeviceId := client.deviceId
    requestedByClientId := client.clientId }

def emptyState : ManagerState := { records := [] }

def dedupParams : ReqParams :=
  { id := none
    command := "rm -rf /tmp/x"
    cwd := some "/work"
    host := none
    security := none
    ask := none
    agentId := none
    resolvedPath := none
    sessionKey := none
    timeoutMs := some 50
    twoPhase := none }

def ambRecordA : ApprovalRecord :=
  { fixtureRecord with id := "ab12cd34-1111-4000-8000-000000000000" }

def ambRecordB : ApprovalRecord :=
  { fixtureRecord with id := "ab12cd34-2222-4000-8000-000000000000" }

def ambState : ManagerState := { records := [ambRecordA, ambRecordB] }

def approveInput : ApproveCmdInput :=
  { allowTextCommands := true
    commandBodyNormalized := "approve cdc9d57c-f5fc-4cd1-8e3e-5edbe1bb5548"
    isAuthorizedSender := true
    isInternalChannel := false
    scopes := [] }

lemma updateById_cons (a : ApprovalRecord) (t : List ApprovalRecord) (id : String)
    (f : ApprovalRecord → ApprovalRecord) :
    updateById (a :: t) id f = (if a.id = id then f a else a) :: updateById t id f := rfl

lemma find?_updateById (l : List ApprovalRecord) (id : String)
    (f : ApprovalRecord → ApprovalRecord) (hf : ∀ q, (f q).id = q.id)
    (r : ApprovalRecord)
    (h : l.find? (fun q => decide (q.id = id)) = some r) :
    (updateById l id f).find? (fun q => decide (q.id = id)) = some (f r) := by
  induction l with
  | nil => exact absurd h (by simp)
  | cons a t ih =>
    rw [updateById_cons]
    by_cases ha : a.id = id
    · rw [if_pos ha]
      have h1 : (a :: t).find? (fun q => decide (q.id = id)) = some a := by
        simp [List.find?, ha]
      rw [h1] at h
      injection h with h
      subst h
      simp [List.find?, hf, ha]
    · rw [if_neg ha]
      have h1 : (a :: t).find? (fun q => decide (q.id = id))
          = t.find? (fun q => decide (q.id = id)) := by
        simp [List.find?, ha]
      rw [h1] at h
      have h2 : (a :: updateById t id f).find? (fun q => decide (q.id = id))
          = (updateById t id f).find? (fun q => decide (q.id = id)) := by
        simp [List.find?, ha]
      rw [h2]
      exact ih h

lemma resolveRecord_not_pending (st : ManagerState) (id : String)
    (d : ExecApprovalDecision) (rb : Option String) (now : Nat) (r : ApprovalRecord)
    (h : st.records.find? (fun q => decide (q.id = id)) = some r)
    (hnp : r.status ≠ ApprovalStatus.pending) :
    resolveRecord st id d rb now = (false, st) := by
  simp [resolveRecord, h, hnp]

lemma expireRecord_not_pending (st : ManagerState) (id : String) (r : ApprovalRecord)
    (h : st.records.find? (fun q => decide (q.id = id)) = some r)
    (hnp : r.status ≠ ApprovalStatus.pending) :
    expireRecord st id = (st, none) := by
  simp [expireRecord, h, hnp]

lemma parseDecision_decisionTag (d : ExecApprovalDecision) :
    parseDecision (decisionTag d) = some d := by
  cases d <;> rfl

/-- C1: for every approval record, the decision is assigned exactly once, at the
first terminal transition performed by exactly one of resolve or expiry-timeout
(whichever occurs first; the other is a no-op); in particular, a second resolve
call on the same id returns failure and the decision stored by the first resolve
is preserved unchanged, and the `exec.approval.resolve` handler reports that
second call to the RPC caller as an error rather than success. -/
theorem decision_assigned_exactly_once
    (st : ManagerState) (r : ApprovalRecord) (d1 d2 : ExecApprovalDecision)
    (rb1 rb2 : Option String) (t1 t2 : Nat) (client : ClientInfo)
    (hfind : st.records.find? (fun q => decide (q.id = r.id)) = some r)
    (hpending : r.status = ApprovalStatus.pending)
    (htrim : jsTrim r.id = r.id) :
    (resolveRecord st r.id d1 rb1 t1).1 = true
    ∧ ((resolveRecord st r.id d1 rb1 t1).2.records.find?
        (fun q => decide (q.id = r.id))).map (fun q => q.decision) = some (some d1)
    ∧ resolveRecord (resolveRecord st r.id d1 rb1 t1).2 r.id d2 rb2 t2
        = (false, (resolveRecord st r.id d1 rb1 t1).2)
    ∧ expireRecord (resolveRecord st r.id d1 rb1 t1).2 r.id
        = ((resolveRecord st r.id d1 rb1 t1).2, none)
    ∧ ((findOpenPendingIdsMatching (resolveRecord st r.id d1 rb1 t1).2 r.id).length ≠ 1 →
        ∃ e, (execApprovalResolve (resolveRecord st r.id d1 rb1 t1).2 r.id
          (decisionTag d2) client t2).responses = [Resp.err e])
    ∧ (expireRecord st r.id).2 = some none
    ∧ resolveRecord (expireRecord st r.id).1 r.id d1 rb1 t1
        = (false, (expireRecord st r.id).1) := by
  have hres : resolveRecord st r.id d1 rb1 t1 =
      (true, { records := updateById st.records r.id (fun q =>
        { q with
          status := ApprovalStatus.resolved
          decision := some d1
          resolvedBy := rb1
          resolvedAtMs := some t1 }) }) := by
    simp [resolveRecord, hfind, hpending]
  have hfind1 : (resolveRecord st r.id d1 rb1 t1).2.records.find?
      (fun q => decide (q.id = r.id)) = some
      { r with
        status := ApprovalStatus.resolved
        decision := some d1
        resolvedBy := rb1
        resolvedAtMs := some t1 } := by
    rw [hres]
    exact find?_updateById st.records r.id
      (fun q =>
        { q with
          status := ApprovalStatus.resolved
          decision := some d1
          resolvedBy := rb1
          resolvedAtMs := some t1 })
      (fun q => rfl) r hfind
  have hexp : expireRecord st r.id =
      ({ records := updateById st.records r.id (fun q =>
        { q with
          status := ApprovalStatus.expired
          decision := none }) }, some none) := by
    simp [expireRecord, hfind, hpending]
  have hfind2 : (expireRecord st r.id).1.records.find?
      (fun q => decide (q.id = r.id)) = some
      { r with
        status := ApprovalStatus.expired
        decision := none } := by
    rw [hexp]
    exact find?_updateById st.records r.id
      (fun q => { q with
          status := ApprovalStatus.expired
          decision := none })
      (fun q => rfl) r hfind
  have hfail2 : ∀ (d : ExecApprovalDecision) (rb : Option String) (t : Nat),
      resolveRecord (resolveRecord st r.id d1 rb1 t1).2 r.id d rb t
        = (false, (resolveRecord st r.id d1 rb1 t1).2) := by
    intro d rb t
    exact resolveRecord_not_pending _ _ d rb t _ hfind1 (by simp)
  refine ⟨by rw [hres], by simp [hfind1], hfail2 d2 rb2 t2, ?_, ?_, by rw [hexp], ?_⟩
  · exact expireRecord_not_pending _ _ _ hfind1 (by simp)
  · intro hlen
    have hfalse := hfail2 d2 (resolvedByOf client) t2
    by_cases hs : isApprovalIdSlug r.id = true
    · cases hms : findOpenPendingIdsMatching (resolveRecord st r.id d1 rb1 t1).2 r.id with
      | nil =>
        refine ⟨RpcError.invalidRequest "unknown approval id" none, ?_⟩
        simp [execApprovalResolve, parseDecision_decisionTag, htrim, hfalse, hs, hms,
          unknownApprovalError]
      | cons m ms =>
        cases ms with
        | nil => exact absurd (by simp [hms]) hlen
        | cons m2 ms2 =>
          refine ⟨RpcError.invalidRequest ("ambiguous approval id prefix " ++ r.id)
            (some (m :: m2 :: ms2)), ?_⟩
          simp [execApprovalResolve, parseDecision_decisionTag, htrim, hfalse, hs, hms,
            ambiguousError]
    · refine ⟨RpcError.invalidRequest "unknown approval id" none, ?_⟩
      simp [execApprovalResolve, parseDecision_decisionTag, htrim, hfalse, hs,
        unknownApprovalError]
  · exact resolveRecord_not_pending _ _ d1 rb1 t1 _ hfind2 (by simp)

/-- Witness for `decision_assigned_exactly_once` at a concrete one-record state. -/
theorem decision_assigned_exactly_once_witness :
    (resolveRecord fixtureState fixtureRecord.id ExecApprovalDecision.allowOnce
      (some "alice") 120).1 = true
    ∧ resolveRecord (resolveRecord fixtureState fixtureRecord.id
        ExecApprovalDecision.allowOnce (some "alice") 120).2 fixtureRecord.id
        ExecApprovalDecision.deny (some "bob") 130
      = (false, (resolveRecord fixtureState fixtureRecord.id
          ExecApprovalDecision.allowOnce (some "alice") 120).2) := by
  have h := decision_assigned_exactly_once fixtureState fixtureRecord
    ExecApprovalDecision.allowOnce ExecApprovalDecision.deny (some "alice") (some "bob")
    120 130 fixtureClient (by decide) (by decide) (by decide)
  exact ⟨h.1, h.2.2.1⟩

lemma registration_msg_ne (msg : String) :
    "registration failed: " ++ msg ≠ "approval id already pending" := by
  intro h
  have h2 : ("registration failed: " ++ msg).data.head? = some 'a' := by rw [h]; rfl
  rw [String.data_append] at h2
  have h3 : ("registration failed: ".data ++ msg.data).head? = some 'r' := rfl
  rw [h3] at h2
  simp at h2

lemma execApprovalRequest_dup (st : ManagerState) (p : ReqParams) (client : ClientInfo)
    (now : Nat) (genId : String) (eid : String)
    (hid : explicitIdOf p = some eid) (hS : (getSnapshot st eid).isSome = true) :
    execApprovalRequest st p client now genId =
      { state := st
        responses := [dupIdError]
        broadcasts := []
        forwards := []
        awaitOn := none } := by
  unfold execApprovalRequest
  simp [hid, Option.any, hS]

lemma execApprovalRequest_nodup_head (st : ManagerState) (p : ReqParams)
    (client : ClientInfo) (now : Nat) (genId : String) (eid : String)
    (hid : explicitIdOf p = some eid) (hS : (getSnapshot st eid).isSome = false) :
    (execApprovalRequest st p client now genId).responses.head? ≠ some dupIdError := by
  unfold execApprovalRequest
  simp only [hid, Option.any, hS, reuseCandidate, Option.isSome_some, if_true, if_false,
    Bool.false_eq_true]
  split
  · intro hcon
    simp [dupIdError] at hcon
    exact registration_msg_ne _ hcon
  · split
    · intro hcon
      simp [dupIdError] at hcon
    · intro hcon
      simp [dupIdError] at hcon

/-- C3 (amended): an `exec.approval.request` call with an explicit (non-blank) id
fails with the duplicate-id error if and only if a tracked record with that
exact id exists — pending or terminal-but-within-grace-period (the handler
checks `getSnapshot`, which also sees grace-period records); when it fails, no
new record is created and no registration is performed. -/
theorem request_duplicate_explicit_id (st : ManagerState) (p : ReqParams)
    (client : ClientInfo) (now : Nat) (genId : String) (eid : String)
    (hid : explicitIdOf p = some eid) :
    ((execApprovalRequest st p client now genId).responses.head? = some dupIdError
      ↔ (getSnapshot st eid).isSome = true)
    ∧ ((getSnapshot st eid).isSome = true →
        execApprovalRequest st p client now genId =
          { state := st
            responses := [dupIdError]
            broadcasts := []
            forwards := []
            awaitOn := none }) := by
  constructor
  · constructor
    · intro hhead
      by_contra hS
      have hS' : (getSnapshot st eid).isSome = false := by
        simpa using hS
      exact execApprovalRequest_nodup_head st p client now genId eid hid hS' hhead
    · intro hS
      rw [execApprovalRequest_dup st p client now genId eid hid hS]
      rfl
  · intro hS
    exact execApprovalRequest_dup st p client now genId eid hid hS

/-- C3 counterexample: with a single tracked record that is already resolved (it
sits in the grace period, no pending record carries its id), a request giving
that id explicitly still fails with the duplicate-id error — refuting the
claimed "if and only if a pending record with that exact id already exists". -/
theorem request_duplicate_explicit_id_counterexample :
    (execApprovalRequest graceState graceParams fixtureClient 200 "gen-2").responses
      = [dupIdError]
    ∧ graceState.records.find? (fun r =>
        decide (r.id = "e0e0e0e0-0000-4000-8000-000000000000"
          ∧ r.status = ApprovalStatus.pending)) = none := by
  decide

/-- Witness for `request_duplicate_explicit_id`: the duplicate-id error fires on
`graceState` exactly because the id is tracked there. -/
theorem request_duplicate_explicit_id_witness :
    (execApprovalRequest graceState graceParams fixtureClient 200 "gen-2").responses.head?
      = some dupIdError := by
  have h := request_duplicate_explicit_id graceState graceParams fixtureClient 200 "gen-2"
    "e0e0e0e0-0000-4000-8000-000000000000" (by decide)
  exact h.1.mpr (by decide)

lemma execApprovalRequest_fresh (st : ManagerState) (p : ReqParams) (client : ClientInfo)
    (now : Nat) (genId : String)
    (hid : p.id = none)
    (hfp : getPendingByFingerprint st
      (fingerprintRequest (reqOf p) (requesterOf client)) = none)
    (hfresh : st.records.find? (fun q => decide (q.id = genId)) = none) :
    execApprovalRequest st p client now genId =
      { state := { records := st.records ++ [freshRecord p client now genId] }
        responses := if p.twoPhase = some true then
          [Resp.ok (RespPayload.accepted genId now
            (now + p.timeoutMs.getD DEFAULT_EXEC_APPROVAL_TIMEOUT_MS))]
        else []
        broadcasts := [GatewayEvent.requested genId (reqOf p) now
          (now + p.timeoutMs.getD DEFAULT_EXEC_APPROVAL_TIMEOUT_MS)]
        forwards := [GatewayEvent.requested genId (reqOf p) now
          (now + p.timeoutMs.getD DEFAULT_EXEC_APPROVAL_TIMEOUT_MS)]
        awaitOn := some (genId, now,
          now + p.timeoutMs.getD DEFAULT_EXEC_APPROVAL_TIMEOUT_MS) } := by
  unfold execApprovalRequest
  simp [explicitIdOf, hid, Option.any, hfp, register, hfresh, freshRecord, createRecord,
    reuseCandidate, requestRecord, requestFingerprint]

lemma execApprovalRequest_reuse (st : ManagerState) (p : ReqParams) (client : ClientInfo)
    (now : Nat) (genId : String) (pending : ApprovalRecord)
    (hid : p.id = none)
    (hfp : getPendingByFingerprint st
      (fingerprintRequest (reqOf p) (requesterOf client)) = some pending) :
    execApprovalRequest st p client now genId =
      { state := st
        responses := if p.twoPhase = some true then
          [Resp.ok (RespPayload.accepted pending.id pending.createdAtMs pending.expiresAtMs)]
        else []
        broadcasts := []
        forwards := []
        awaitOn := some (pending.id, pending.createdAtMs, pending.expiresAtMs) } := by
  have hm : pending ∈ st.records := List.mem_of_find?_eq_some hfp
  have hs : (st.records.find? (fun q => decide (q.id = pending.id))).isSome = true :=
    List.find?_isSome.mpr ⟨pending, hm, by simp⟩
  unfold execApprovalRequest
  simp [explicitIdOf, hid, Option.any, hfp, awaitDecision, hs, reuseCandidate,
    requestFingerprint]

/-- C2: two `exec.approval.request` calls with identical request and requester
content (hence identical fingerprint) and no explicit id, the second made while
the record created by the first is still pending, do not create a second record:
both calls await the same id (so both final responses carry the identical id),
the second call leaves the state untouched, and exactly one "requested"
broadcast and one forwarder `handleRequested` intent are produced in total (the
dedup reuse path emits neither). -/
theorem request_dedup_reuses_pending (st0 : ManagerState) (p : ReqParams)
    (client : ClientInfo) (n1 n2 : Nat) (g1 g2 : String)
    (hid : p.id = none)
    (hfp : getPendingByFingerprint st0
      (fingerprintRequest (reqOf p) (requesterOf client)) = none)
    (hfresh : st0.records.find? (fun q => decide (q.id = g1)) = none) :
    (execApprovalRequest (execApprovalRequest st0 p client n1 g1).state p client n2 g2).awaitOn
      = (execApprovalRequest st0 p client n1 g1).awaitOn
    ∧ (execApprovalRequest st0 p client n1 g1).awaitOn
        = some (g1, n1, n1 + p.timeoutMs.getD DEFAULT_EXEC_APPROVAL_TIMEOUT_MS)
    ∧ (execApprovalRequest (execApprovalRequest st0 p client n1 g1).state p client n2 g2).state
        = (execApprovalRequest st0 p client n1 g1).state
    ∧ (execApprovalRequest st0 p client n1 g1).broadcasts.length = 1
    ∧ (execApprovalRequest st0 p client n1 g1).forwards.length = 1
    ∧ (execApprovalRequest (execApprovalRequest st0 p client n1 g1).state p client n2 g2).broadcasts
        = []
    ∧ (execApprovalRequest (execApprovalRequest st0 p client n1 g1).state p client n2 g2).forwards
        = [] := by
  have h1 := execApprovalRequest_fresh st0 p client n1 g1 hid hfp hfresh
  have hfp1 : getPendingByFingerprint (execApprovalRequest st0 p client n1 g1).state
      (fingerprintRequest (reqOf p) (requesterOf client))
      = some (freshRecord p client n1 g1) := by
    rw [h1]
    unfold getPendingByFingerprint at hfp ⊢
    rw [List.find?_append, hfp]
    simp [List.find?, freshRecord, createRecord]
  have h2 := execApprovalRequest_reuse (execApprovalRequest st0 p client n1 g1).state
    p client n2 g2 (freshRecord p client n1 g1) hid hfp1
  refine ⟨?_, ?_, ?_, ?_, ?_, ?_, ?_⟩
  · rw [h2, h1]
    rfl
  · rw [h1]
  · rw [h2]
  · rw [h1]
    rfl
  · rw [h1]
    rfl
  · rw [h2]
  · rw [h2]

/-- Witness for `request_dedup_reuses_pending` on the empty registry. -/
theorem request_dedup_reuses_pending_witness :
    (execApprovalRequest (execApprovalRequest emptyState dedupParams fixtureClient 100 "11112222-0000-4000-8000-000000000000").state
      dedupParams fixtureClient 110 "33334444-0000-4000-8000-000000000000").awaitOn
      = (execApprovalRequest emptyState dedupParams fixtureClient 100 "11112222-0000-4000-8000-000000000000").awaitOn
    ∧ (execApprovalRequest emptyState dedupParams fixtureClient 100 "11112222-0000-4000-8000-000000000000").broadcasts.length = 1 := by
  have h := request_dedup_reuses_pending emptyState dedupParams fixtureClient 100 110
    "11112222-0000-4000-8000-000000000000" "33334444-0000-4000-8000-000000000000"
    (by decide) (by decide) (by decide)
  exact ⟨h.1, h.2.2.2.1⟩

lemma find?_eq_of_mem_nodup (l : List ApprovalRecord)
    (hnd : (l.map (fun r => r.id)).Nodup) (r : ApprovalRecord) (hr : r ∈ l) :
    l.find? (fun q => decide (q.id = r.id)) = some r := by
  induction l with
  | nil => cases hr
  | cons a t ih =>
    rw [List.map_cons, List.nodup_cons] at hnd
    rcases List.mem_cons.mp hr with rfl | hmem
    · simp [List.find?]
    · have hne : ¬ a.id = r.id := by
        intro he
        apply hnd.1
        rw [he]
        exact List.mem_map.mpr ⟨r, hmem, rfl⟩
      have h1 : (a :: t).find? (fun q => decide (q.id = r.id))
          = t.find? (fun q => decide (q.id = r.id)) := by
        simp [List.find?, hne]
      rw [h1]
      exact ih hnd.2 hmem

lemma mem_findOpenPendingIdsMatching (st : ManagerState) (short : String) (i : String)
    (h : i ∈ findOpenPendingIdsMatching st short) :
    ∃ r ∈ st.records, r.id = i ∧ r.status = ApprovalStatus.pending := by
  unfold findOpenPendingIdsMatching at h
  rw [List.mem_map] at h
  obtain ⟨r, hrf, rfl⟩ := h
  rw [List.mem_filter] at hrf
  refine ⟨r, hrf.1, rfl, ?_⟩
  have h2 := hrf.2
  simp only [decide_eq_true_eq] at h2
  exact h2.1

/-- C4: an `exec.approval.resolve` call with a valid decision tag whose id fails
the exact-id resolve but has the short-prefix shape: zero open/pending matches
keep the original unknown-id failure, two or more matches fail with an ambiguity
error whose details carry the full candidate list, and exactly one match retries
the resolve with that full id (which succeeds); terminal records are never
candidates for the prefix resolution. -/
theorem resolve_short_id (st : ManagerState) (rid : String) (d : ExecApprovalDecision)
    (client : ClientInfo) (now : Nat)
    (hnd : (st.records.map (fun r => r.id)).Nodup)
    (hfail : (resolveRecord st (jsTrim rid) d (resolvedByOf client) now).1 = false)
    (hslug : isApprovalIdSlug (jsTrim rid) = true) :
    (findOpenPendingIdsMatching st (jsTrim rid) = [] →
      execApprovalResolve st rid (decisionTag d) client now =
        { state := st
          responses := [unknownApprovalError]
          broadcasts := []
          forwards := [] })
    ∧ (2 ≤ (findOpenPendingIdsMatching st (jsTrim rid)).length →
      execApprovalResolve st rid (decisionTag d) client now =
        { state := st
          responses := [ambiguousError (jsTrim rid) (findOpenPendingIdsMatching st (jsTrim rid))]
          broadcasts := []
          forwards := [] })
    ∧ (∀ m, findOpenPendingIdsMatching st (jsTrim rid) = [m] →
      (resolveRecord st m d (resolvedByOf client) now).1 = true
      ∧ execApprovalResolve st rid (decisionTag d) client now
          = resolveSuccess (resolveRecord st m d (resolvedByOf client) now).2
              m d (resolvedByOf client) now)
    ∧ (∀ i ∈ findOpenPendingIdsMatching st (jsTrim rid),
        ∃ r ∈ st.records, r.id = i ∧ r.status = ApprovalStatus.pending) := by
  have hff : (resolveRecord st (jsTrim rid) d (resolvedByOf client) now).1 ≠ true := by
    rw [hfail]
    simp
  refine ⟨?_, ?_, ?_, fun i hi => mem_findOpenPendingIdsMatching st (jsTrim rid) i hi⟩
  · intro hms
    simp [execApprovalResolve, parseDecision_decisionTag, hff, hslug, hms,
      unknownApprovalError]
  · intro hlen
    cases hms : findOpenPendingIdsMatching st (jsTrim rid) with
    | nil =>
      rw [hms] at hlen
      exact absurd hlen (by simp)
    | cons m ms =>
      cases ms with
      | nil =>
        rw [hms] at hlen
        exact absurd hlen (by simp)
      | cons m2 ms2 =>
        simp [execApprovalResolve, parseDecision_decisionTag, hff, hslug, hms,
          ambiguousError]
  · intro m hms
    have hmmem : m ∈ findOpenPendingIdsMatching st (jsTrim rid) := by
      rw [hms]
      exact List.mem_singleton.mpr rfl
    obtain ⟨r, hrmem, hrid, hrp⟩ := mem_findOpenPendingIdsMatching st (jsTrim rid) m hmmem
    have hfind : st.records.find? (fun q => decide (q.id = m)) = some r := by
      rw [← hrid]
      exact find?_eq_of_mem_nodup st.records hnd r hrmem
    have hok : (resolveRecord st m d (resolvedByOf client) now).1 = true := by
      simp [resolveRecord, hfind, hrp]
    refine ⟨hok, ?_⟩
    simp [execApprovalResolve, parseDecision_decisionTag, hff, hslug, hms, hok]

/-- Witness for `resolve_short_id`: in a one-record registry, the short prefix
"cdc9d57c" resolves to the single pending full id and the resolve succeeds. -/
theorem resolve_short_id_witness :
    (resolveRecord fixtureState fixtureRecord.id ExecApprovalDecision.deny
      (resolvedByOf fixtureClient) 130).1 = true
    ∧ execApprovalResolve fixtureState "cdc9d57c" (decisionTag ExecApprovalDecision.deny)
        fixtureClient 130
      = resolveSuccess (resolveRecord fixtureState fixtureRecord.id
          ExecApprovalDecision.deny (resolvedByOf fixtureClient) 130).2
          fixtureRecord.id ExecApprovalDecision.deny (resolvedByOf fixtureClient) 130 := by
  have h := resolve_short_id fixtureState "cdc9d57c" ExecApprovalDecision.deny
    fixtureClient 130 (by decide) (by decide) (by decide)
  exact h.2.2.1 fixtureRecord.id (by decide)

lemma mem_findIdsMatching (st : ManagerState) (short : String) (i : String)
    (h : i ∈ findIdsMatching st short) :
    ∃ r ∈ st.records, r.id = i := by
  unfold findIdsMatching at h
  rw [List.mem_map] at h
  obtain ⟨r, hrf, rfl⟩ := h
  rw [List.mem_filter] at hrf
  exact ⟨r, hrf.1, rfl⟩

lemma awaitDecision_eq_some (st : ManagerState) (i : String) (r : ApprovalRecord)
    (hr : r ∈ st.records) (hid : r.id = i) : awaitDecision st i = some i := by
  have hs : (st.records.find? (fun q => decide (q.id = i))).isSome = true :=
    List.find?_isSome.mpr ⟨r, hr, by simp [hid]⟩
  simp [awaitDecision, hs]

lemma awaitDecision_isSome_eq (st : ManagerState) (i : String)
    (hk : (awaitDecision st i).isSome = true) : awaitDecision st i = some i := by
  unfold awaitDecision at hk ⊢
  by_cases hc : (st.records.find? (fun q => decide (q.id = i))).isSome = true
  · simp [hc]
  · simp [hc] at hk

/-- C5: `exec.approval.waitDecision` uses a known literal id directly; otherwise
an id of the short-prefix shape is resolved against all tracked ids (pending
plus grace period): exactly one match is used as the target id, multiple matches
produce an ambiguity error carrying the candidate list, zero matches produce the
not-found error; a missing or blank id produces a validation error. -/
theorem waitDecision_short_id_resolution (st : ManagerState) (s : String) :
    execApprovalWaitSync st none = WaitOutcome.failed idRequiredError
    ∧ (jsTrim s = "" → execApprovalWaitSync st (some s) = WaitOutcome.failed idRequiredError)
    ∧ (jsTrim s ≠ "" → (awaitDecision st (jsTrim s)).isSome = true →
        execApprovalWaitSync st (some s)
          = WaitOutcome.waiting (jsTrim s) (getSnapshot st (jsTrim s)))
    ∧ (jsTrim s ≠ "" → awaitDecision st (jsTrim s) = none →
        isApprovalIdSlug (jsTrim s) = true →
        (∀ m, findIdsMatching st (jsTrim s) = [m] →
          execApprovalWaitSync st (some s) = WaitOutcome.waiting m (getSnapshot st m))
        ∧ (findIdsMatching st (jsTrim s) = [] →
            execApprovalWaitSync st (some s) = WaitOutcome.failed expiredError)
        ∧ (2 ≤ (findIdsMatching st (jsTrim s)).length →
            execApprovalWaitSync st (some s)
              = WaitOutcome.failed (ambiguousError (jsTrim s) (findIdsMatching st (jsTrim s)))))
    ∧ (jsTrim s ≠ "" → awaitDecision st (jsTrim s) = none →
        isApprovalIdSlug (jsTrim s) = false →
        execApprovalWaitSync st (some s) = WaitOutcome.failed expiredError) := by
  refine ⟨by simp [execApprovalWaitSync], ?_, ?_, ?_, ?_⟩
  · intro hz
    simp [execApprovalWaitSync, hz]
  · intro hne hk
    have hk' := awaitDecision_isSome_eq st (jsTrim s) hk
    simp [execApprovalWaitSync, hne, hk, hk']
  · intro hne hnone hslug
    refine ⟨?_, ?_, ?_⟩
    · intro m hms
      have hmmem : m ∈ findIdsMatching st (jsTrim s) := by
        rw [hms]
        exact List.mem_singleton.mpr rfl
      obtain ⟨r, hr, hid⟩ := mem_findIdsMatching st (jsTrim s) m hmmem
      have ham : awaitDecision st m = some m := awaitDecision_eq_some st m r hr hid
      simp [execApprovalWaitSync, hne, hnone, hslug, hms, ham]
    · intro hms
      simp [execApprovalWaitSync, hne, hnone, hslug, hms]
    · intro hlen
      cases hms : findIdsMatching st (jsTrim s) with
      | nil =>
        rw [hms] at hlen
        exact absurd hlen (by simp)
      | cons m ms =>
        cases ms with
        | nil =>
          rw [hms] at hlen
          exact absurd hlen (by simp)
        | cons m2 ms2 =>
          have hlt : 1 < (m :: m2 :: ms2).length := by
            simp
          simp [execApprovalWaitSync, hne, hnone, hslug, hms, hlt]
  · intro hne hnone hslug
    simp [execApprovalWaitSync, hne, hnone, hslug]

/-- Witness for `waitDecision_short_id_resolution`: two tracked ids share the
short prefix "ab12cd34", so waitDecision reports the ambiguity with both
candidates. -/
theorem waitDecision_short_id_resolution_witness :
    execApprovalWaitSync ambState (some "ab12cd34")
      = WaitOutcome.failed (ambiguousError "ab12cd34"
          ["ab12cd34-1111-4000-8000-000000000000", "ab12cd34-2222-4000-8000-000000000000"]) := by
  have h := waitDecision_short_id_resolution ambState "ab12cd34"
  have h2 := (h.2.2.2.1 (by decide) (by decide) (by decide)).2.2 (by decide)
  exact h2.trans (by decide)

lemma find?_gcRecord (st : ManagerState) (id : String) :
    (gcRecord st id).records.find? (fun q => decide (q.id = id)) = none := by
  apply List.find?_eq_none.mpr
  intro x hx
  unfold gcRecord at hx
  rw [List.mem_filter] at hx
  have h2 := hx.2
  simp only [Bool.not_eq_true', decide_eq_false_iff_not] at h2
  simp [h2]

/-- C6: a record that reaches its timeout unresolved delivers `none` to its
waiters, and `exec.approval.waitDecision` turns that into a successful
response `(id, decision, createdAtMs, expiresAtMs)` whose decision field is
null — never an error; the timestamps come from the snapshot captured before
awaiting, so the response survives the record being GC'd afterwards. -/
theorem timeout_delivered_as_decision (st : ManagerState) (r : ApprovalRecord)
    (hfind : st.records.find? (fun q => decide (q.id = r.id)) = some r)
    (hpending : r.status = ApprovalStatus.pending)
    (htrim : jsTrim r.id = r.id) (hne : r.id ≠ "") :
    execApprovalWaitSync st (some r.id) = WaitOutcome.waiting r.id (some (toSnapshot r))
    ∧ (expireRecord st r.id).2 = some none
    ∧ waitDeliver r.id (some (toSnapshot r)) none
        = Resp.ok (RespPayload.waitResult r.id none (some r.createdAtMs) (some r.expiresAtMs))
    ∧ (gcRecord (expireRecord st r.id).1 r.id).records.find?
        (fun q => decide (q.id = r.id)) = none := by
  have hk' : awaitDecision st r.id = some r.id := by
    simp [awaitDecision, hfind]
  have hsnap : getSnapshot st r.id = some (toSnapshot r) := by
    simp [getSnapshot, hfind]
  refine ⟨?_, ?_, rfl, find?_gcRecord (expireRecord st r.id).1 r.id⟩
  · rw [show execApprovalWaitSync st (some r.id)
        = WaitOutcome.waiting r.id (getSnapshot st r.id) from ?_, hsnap]
    simp [execApprovalWaitSync, htrim, hne, hk']
  · simp [expireRecord, hfind, hpending]

/-- Witness for `timeout_delivered_as_decision` on the one-record fixture state. -/
theorem timeout_delivered_as_decision_witness :
    execApprovalWaitSync fixtureState (some fixtureRecord.id)
      = WaitOutcome.waiting fixtureRecord.id (some (toSnapshot fixtureRecord))
    ∧ (expireRecord fixtureState fixtureRecord.id).2 = some none := by
  have h := timeout_delivered_as_decision fixtureState fixtureRecord
    (by decide) (by decide) (by decide) (by decide)
  exact ⟨h.1, h.2.1⟩

lemma execApprovalRequest_eq_dup (st : ManagerState) (p : ReqParams) (client : ClientInfo)
    (now : Nat) (genId : String)
    (hdup : (explicitIdOf p).any (fun eid => (getSnapshot st eid).isSome) = true) :
    execApprovalRequest st p client now genId =
      { state := st
        responses := [dupIdError]
        broadcasts := []
        forwards := []
        awaitOn := none } := by
  unfold execApprovalRequest
  simp [hdup]

lemma execApprovalRequest_eq_reuse_wait (st : ManagerState) (p : ReqParams)
    (client : ClientInfo) (now : Nat) (genId : String) (pending : ApprovalRecord) (x : String)
    (hdup : (explicitIdOf p).any (fun eid => (getSnapshot st eid).isSome) = false)
    (hr : reuseCandidate st p client = some pending)
    (hA : awaitDecision st pending.id = some x) :
    execApprovalRequest st p client now genId =
      { state := st
        responses := if p.twoPhase = some true then
          [Resp.ok (RespPayload.accepted pending.id pending.createdAtMs pending.expiresAtMs)]
        else []
        broadcasts := []
        forwards := []
        awaitOn := some (pending.id, pending.createdAtMs, pending.expiresAtMs) } := by
  unfold execApprovalRequest
  simp [hdup, hr, hA]

lemma execApprovalRequest_eq_reuse_dead (st : ManagerState) (p : ReqParams)
    (client : ClientInfo) (now : Nat) (genId : String) (pending : ApprovalRecord)
    (hdup : (explicitIdOf p).any (fun eid => (getSnapshot st eid).isSome) = false)
    (hr : reuseCandidate st p client = some pending)
    (hA : awaitDecision st pending.id = none) :
    execApprovalRequest st p client now genId =
      { state := st
        responses := (if p.twoPhase = some true then
          [Resp.ok (RespPayload.accepted pending.id pending.createdAtMs pending.expiresAtMs)]
        else []) ++ [expiredError]
        broadcasts := []
        forwards := []
        awaitOn := none } := by
  unfold execApprovalRequest
  simp [hdup, hr, hA]

lemma execApprovalRequest_eq_register_err (st : ManagerState) (p : ReqParams)
    (client : ClientInfo) (now : Nat) (genId : String) (msg : String)
    (hdup : (explicitIdOf p).any (fun eid => (getSnapshot st eid).isSome) = false)
    (hr : reuseCandidate st p client = none)
    (hreg : register st (requestRecord p client now genId) (requestFingerprint p client)
      = Except.error msg) :
    execApprovalRequest st p client now genId =
      { state := st
        responses := [Resp.err (RpcError.invalidRequest ("registration failed: " ++ msg) none)]
        broadcasts := []
        forwards := []
        awaitOn := none } := by
  unfold execApprovalRequest
  simp [hdup, hr, hreg]

lemma execApprovalRequest_eq_register_ok (st : ManagerState) (p : ReqParams)
    (client : ClientInfo) (now : Nat) (genId : String) (st1 : ManagerState)
    (hdup : (explicitIdOf p).any (fun eid => (getSnapshot st eid).isSome) = false)
    (hr : reuseCandidate st p client = none)
    (hreg : register st (requestRecord p client now genId) (requestFingerprint p client)
      = Except.ok st1) :
    execApprovalRequest st p client now genId =
      { state := st1
        responses := if p.twoPhase = some true then
          [Resp.ok (RespPayload.accepted (requestRecord p client now genId).id
            (requestRecord p client now genId).createdAtMs
            (requestRecord p client now genId).expiresAtMs)]
        else []
        broadcasts := [GatewayEvent.requested (requestRecord p client now genId).id
          (requestRecord p client now genId).request
          (requestRecord p client now genId).createdAtMs
          (requestRecord p client now genId).expiresAtMs]
        forwards := [GatewayEvent.requested (requestRecord p client now genId).id
          (requestRecord p client now genId).request
          (requestRecord p client now genId).createdAtMs
          (requestRecord p client now genId).expiresAtMs]
        awaitOn := some ((requestRecord p client now genId).id,
          (requestRecord p client now genId).createdAtMs,
          (requestRecord p client now genId).expiresAtMs) } := by
  unfold execApprovalRequest
  simp [hdup, hr, hreg]

/-- C7: when `exec.approval.request` reaches its await point (no error path was
taken), a call with `twoPhase = true` sends the immediate "accepted" response
`(id, createdAtMs, expiresAtMs)` followed by the final decision response, and a
call without `twoPhase = true` sends exactly one response: the final one
carrying the decision. -/
theorem twoPhase_response_protocol (st : ManagerState) (p : ReqParams)
    (client : ClientInfo) (now : Nat) (genId : String)
    (d : Option ExecApprovalDecision) (a : String × Nat × Nat)
    (hok : (execApprovalRequest st p client now genId).awaitOn = some a) :
    (p.twoPhase = some true →
      totalResponses (execApprovalRequest st p client now genId) d
        = [Resp.ok (RespPayload.accepted a.1 a.2.1 a.2.2), finalRequestResponse a d])
    ∧ (p.twoPhase ≠ some true →
      totalResponses (execApprovalRequest st p client now genId) d
        = [finalRequestResponse a d]) := by
  by_cases hdup : (explicitIdOf p).any (fun eid => (getSnapshot st eid).isSome) = true
  · rw [execApprovalRequest_eq_dup st p client now genId hdup] at hok
    exact absurd hok (by simp)
  · have hdup' : (explicitIdOf p).any (fun eid => (getSnapshot st eid).isSome) = false := by
      simpa using hdup
    cases hr : reuseCandidate st p client with
    | some pending =>
      cases hA : awaitDecision st pending.id with
      | none =>
        rw [execApprovalRequest_eq_reuse_dead st p client now genId pending hdup' hr hA] at hok
        exact absurd hok (by simp)
      | some x =>
        rw [execApprovalRequest_eq_reuse_wait st p client now genId pending x hdup' hr hA]
          at hok ⊢
        simp only [Option.some.injEq] at hok
        subst hok
        constructor
        · intro ht
          simp [totalResponses, finalRequestResponse, ht]
        · intro ht
          simp [totalResponses, finalRequestResponse, ht]
    | none =>
      cases hreg : register st (requestRecord p client now genId)
          (requestFingerprint p client) with
      | error msg =>
        rw [execApprovalRequest_eq_register_err st p client now genId msg hdup' hr hreg] at hok
        exact absurd hok (by simp)
      | ok st1 =>
        rw [execApprovalRequest_eq_register_ok st p client now genId st1 hdup' hr hreg]
          at hok ⊢
        simp only [Option.some.injEq] at hok
        subst hok
        constructor
        · intro ht
          simp [totalResponses, finalRequestResponse, ht]
        · intro ht
          simp [totalResponses, finalRequestResponse, ht]

/-- Witness for `twoPhase_response_protocol`: a single-phase request on the
empty registry yields exactly the one final decision response. -/
theorem twoPhase_response_protocol_witness :
    totalResponses (execApprovalRequest emptyState dedupParams fixtureClient 100
        "11112222-0000-4000-8000-000000000000") (some ExecApprovalDecision.allowOnce)
      = [finalRequestResponse ("11112222-0000-4000-8000-000000000000", 100, 150)
          (some ExecApprovalDecision.allowOnce)] := by
  have h := twoPhase_response_protocol emptyState dedupParams fixtureClient 100
    "11112222-0000-4000-8000-000000000000" (some ExecApprovalDecision.allowOnce)
    ("11112222-0000-4000-8000-000000000000", 100, 150) (by decide)
  exact h.2 (by decide)

/-- C8: for both `exec.approval.request` and `exec.approval.resolve`, a failure
of the broadcast delivery or of the forwarder collaborator never changes the
RPC outcome: the caller-visible responses and the resulting registry state are
identical whatever the failure flags, because the forwarder promise is consumed
by `.catch` (log only) and the broadcast is best-effort. -/
theorem broadcast_forward_failures_isolated (st : ManagerState) (p : ReqParams)
    (client : ClientInfo) (now : Nat) (genId : String) (d : Option ExecApprovalDecision)
    (st2 : ManagerState) (pid pdecision : String) (client2 : ClientInfo) (now2 : Nat)
    (b1 f1 b2 f2 : Bool) :
    ((runExecApprovalRequest st p client now genId d b1 f1).responses
        = (runExecApprovalRequest st p client now genId d b2 f2).responses
      ∧ (runExecApprovalRequest st p client now genId d b1 f1).state
        = (runExecApprovalRequest st p client now genId d b2 f2).state)
    ∧ ((runExecApprovalResolve st2 pid pdecision client2 now2 b1 f1).responses
        = (runExecApprovalResolve st2 pid pdecision client2 now2 b2 f2).responses
      ∧ (runExecApprovalResolve st2 pid pdecision client2 now2 b1 f1).state
        = (runExecApprovalResolve st2 pid pdecision client2 now2 b2 f2).state) :=
  ⟨⟨rfl, rfl⟩, ⟨rfl, rfl⟩⟩

lemma parseApprovalId_isUuid {r i : String}
    (h : parseApprovalId r = some i) : isUuid i = true := by
  unfold parseApprovalId at h
  by_cases h1 : jsTrim r = ""
  · simp [h1] at h
  · by_cases h2 : isUuid (jsTrim r) = true
    · simp [h1, h2] at h
      subst h
      exact h2
    · simp [h1, h2] at h

lemma parseApproveTokens_parsed_isUuid (ts : List String) (i : String)
    (d : ExecApprovalDecision)
    (h : parseApproveTokens ts = ParsedApprove.parsed i d) : isUuid i = true := by
  unfold parseApproveTokens at h
  repeat' split at h
  all_goals (cases h <;> (apply parseApprovalId_isUuid; assumption))

lemma parseApproveCommand_parsed_isUuid (raw : String) (i : String)
    (d : ExecApprovalDecision)
    (h : parseApproveCommand raw = ParsedApprove.parsed i d) : isUuid i = true := by
  unfold parseApproveCommand at h
  dsimp only at h
  repeat' split at h
  all_goals first
    | (exact parseApproveTokens_parsed_isUuid _ _ _ h)
    | (cases h)

lemma splitDashAux_no_dash (l : List Char) (acc : List Char)
    (h : ∀ c ∈ l, ¬ c = '-') :
    splitDashAux l acc = [acc.reverse ++ l] := by
  induction l generalizing acc with
  | nil => simp [splitDashAux]
  | cons c cs ih =>
    rw [splitDashAux, if_neg (h c (List.mem_cons_self c cs))]
    rw [ih (c :: acc) (fun x hx => h x (List.mem_cons_of_mem c hx))]
    simp

lemma isHexDigit_ne_dash (c : Char) (h : isHexDigit c = true) : ¬ c = '-' := by
  intro he
  subst he
  exact absurd h (by decide)

lemma slug_not_uuid (s : String) (h : isApprovalIdSlug s = true) : isUuid s = false := by
  unfold isApprovalIdSlug at h
  rw [Bool.and_eq_true] at h
  have hlen : s.data.length = 8 := by simpa using h.1
  have hhex : ∀ c ∈ s.data, isHexDigit c = true := by
    have h2 := h.2
    rw [List.all_eq_true] at h2
    exact h2
  have hnod : ∀ c ∈ s.data, ¬ c = '-' := fun c hc => isHexDigit_ne_dash c (hhex c hc)
  unfold isUuid
  rw [splitDashAux_no_dash s.data [] hnod]
  simp [hlen]

/-- C9: the chat approve command accepts only full 8-4-4-4-12 hexadecimal UUID
ids: `parseApproveCommand` only ever succeeds with a UUID id,
`handleApproveCommand` only ever submits `exec.approval.resolve` with a UUID
id, and no 8-hex short prefix (the RPC slug shape) is a UUID — so short id
prefixes cannot be used through the chat channel even though the RPC resolve
path supports them. -/
theorem chat_approve_requires_full_uuid (raw : String) (i1 : String)
    (d1 : ExecApprovalDecision) (inp : ApproveCmdInput) (i2 : String)
    (d2 : ExecApprovalDecision) (s : String)
    (h1 : parseApproveCommand raw = ParsedApprove.parsed i1 d1)
    (h2 : handleApproveCommand inp = ApproveAction.submitResolve i2 d2)
    (h3 : isApprovalIdSlug s = true) :
    isUuid i1 = true ∧ isUuid i2 = true ∧ isUuid s = false := by
  refine ⟨parseApproveCommand_parsed_isUuid raw i1 d1 h1, ?_, slug_not_uuid s h3⟩
  unfold handleApproveCommand at h2
  by_cases ha : inp.allowTextCommands = false
  · rw [if_pos ha] at h2
    cases h2
  · rw [if_neg ha] at h2
    cases hp : parseApproveCommand inp.commandBodyNormalized with
    | noMatch =>
      rw [hp] at h2
      cases h2
    | usageError e =>
      rw [hp] at h2
      dsimp only at h2
      by_cases hau : inp.isAuthorizedSender = false
      · rw [if_pos hau] at h2
        cases h2
      · rw [if_neg hau] at h2
        cases h2
    | parsed id d =>
      rw [hp] at h2
      dsimp only at h2
      by_cases hau : inp.isAuthorizedSender = false
      · rw [if_pos hau] at h2
        cases h2
      · rw [if_neg hau] at h2
        by_cases hscope : (inp.isInternalChannel
            && !(inp.scopes.contains "operator.approvals"
                || inp.scopes.contains "operator.admin")) = true
        · rw [if_pos hscope] at h2
          cases h2
        · rw [if_neg hscope] at h2
          injection h2 with hi hd
          subst hi
          exact parseApproveCommand_parsed_isUuid _ _ _ hp

/-- Witness for `chat_approve_requires_full_uuid` at concrete chat inputs. -/
theorem chat_approve_requires_full_uuid_witness :
    isUuid "cdc9d57c-f5fc-4cd1-8e3e-5edbe1bb5548" = true
    ∧ isUuid "ab12cd34" = false := by
  have h := chat_approve_requires_full_uuid
    "approve cdc9d57c-f5fc-4cd1-8e3e-5edbe1bb5548"
    "cdc9d57c-f5fc-4cd1-8e3e-5edbe1bb5548" ExecApprovalDecision.allowOnce
    approveInput "cdc9d57c-f5fc-4cd1-8e3e-5edbe1bb5548" ExecApprovalDecision.allowOnce
    "ab12cd34" (by decide) (by decide) (by decide)
  exact ⟨h.1, h.2.2⟩

lemma mem_of_head? {l : List Char} {c : Char} (h : l.head? = some c) : c ∈ l := by
  cases l with
  | nil => cases h
  | cons a t =>
    injection h with h
    subst h
    exact List.mem_cons_self a t

lemma mem_of_getLast? {l : List Char} {c : Char} (h : l.getLast? = some c) : c ∈ l := by
  rw [← List.head?_reverse] at h
  exact List.mem_reverse.mp (mem_of_head? h)

lemma ws_char_cases (c : Char) (h : c.isWhitespace = true) :
    c = ' ' ∨ c = '\t' ∨ c = '\r' ∨ c = '\n' := by
  simp [Char.isWhitespace] at h
  tauto

lemma char_hex_not_ws (c : Char) (h : isHexDigit c = true) : c.isWhitespace = false := by
  by_contra hw
  have hw' : c.isWhitespace = true := by simpa using hw
  rcases ws_char_cases c hw' with rfl | rfl | rfl | rfl <;> exact Bool.noConfusion h

lemma toLower_ws_fixed (c : Char) (h : c.isWhitespace = true) : c.toLower = c := by
  rcases ws_char_cases c h with rfl | rfl | rfl | rfl <;> decide

lemma dropWhile_ws_eq_self (l : List Char)
    (h : ∀ c, l.head? = some c → c.isWhitespace = false) :
    l.dropWhile Char.isWhitespace = l := by
  cases l with
  | nil => rfl
  | cons c t =>
    have hc : c.isWhitespace = false := h c rfl
    rw [List.dropWhile_cons, hc]
    simp

lemma trimChars_eq_self (l : List Char)
    (hhead : ∀ c, l.head? = some c → c.isWhitespace = false)
    (hlast : ∀ c, l.getLast? = some c → c.isWhitespace = false) :
    trimChars l = l := by
  unfold trimChars
  rw [dropWhile_ws_eq_self l hhead]
  rw [dropWhile_ws_eq_self l.reverse
    (fun c hc => hlast c (by rwa [List.head?_reverse] at hc))]
  exact List.reverse_reverse l

lemma trimChars_cons_ws (c : Char) (l : List Char) (hc : c.isWhitespace = true) :
    trimChars (c :: l) = trimChars l := by
  unfold trimChars
  rw [List.dropWhile_cons, hc]
  simp

lemma splitWsAux_append_no_ws (l : List Char) (cs : List Char)
    (h : ∀ c ∈ l, c.isWhitespace = false) : ∀ acc,
    splitWsAux (l ++ cs) acc = splitWsAux cs (l.reverse ++ acc) := by
  induction l with
  | nil => intro acc; simp
  | cons c t ih =>
    intro acc
    have hc : c.isWhitespace = false := h c (List.mem_cons_self c t)
    rw [show ((c :: t).reverse ++ acc) = t.reverse ++ (c :: acc) from by simp]
    rw [List.cons_append]
    rw [show splitWsAux (c :: (t ++ cs)) acc = splitWsAux (t ++ cs) (c :: acc) from by
      simp [splitWsAux, hc]]
    exact ih (fun x hx => h x (List.mem_cons_of_mem c hx)) (c :: acc)

lemma splitWsAux_no_ws (l : List Char)
    (h : ∀ c ∈ l, c.isWhitespace = false) (hne : l ≠ []) : ∀ acc,
    splitWsAux l acc = [acc.reverse ++ l] := by
  intro acc
  have h0 := splitWsAux_append_no_ws l [] h acc
  rw [List.append_nil] at h0
  rw [h0]
  have hne2 : (l.reverse ++ acc).isEmpty = false := by
    cases hl : l.reverse with
    | nil => exact absurd (by simpa using hl) hne
    | cons a b => simp [hl]
  simp [splitWsAux, hne2]

lemma splitWs_one_token (l : List Char)
    (h : ∀ c ∈ l, c.isWhitespace = false) (hne : l ≠ []) :
    splitWsTokens ⟨l⟩ = [⟨l⟩] := by
  unfold splitWsTokens
  rw [show (String.mk l).data = l from rfl]
  rw [splitWsAux_no_ws l h hne []]
  rfl

lemma splitWs_two_tokens (t1 t2 : List Char)
    (h1 : ∀ c ∈ t1, c.isWhitespace = false) (h2 : ∀ c ∈ t2, c.isWhitespace = false)
    (hn1 : t1 ≠ []) (hn2 : t2 ≠ []) :
    splitWsTokens ⟨t1 ++ ' ' :: t2⟩ = [⟨t1⟩, ⟨t2⟩] := by
  unfold splitWsTokens
  rw [show (String.mk (t1 ++ ' ' :: t2)).data = t1 ++ ' ' :: t2 from rfl]
  rw [splitWsAux_append_no_ws t1 (' ' :: t2) h1 []]
  rw [List.append_nil]
  have hne2 : (t1.reverse).isEmpty = false := by
    cases hl : t1.reverse with
    | nil => exact absurd (by simpa using hl) hn1
    | cons a b => simp [hl]
  rw [show splitWsAux (' ' :: t2) t1.reverse
      = t1.reverse.reverse :: splitWsAux t2 [] from by
    simp [splitWsAux, hne2]]
  rw [List.reverse_reverse]
  rw [splitWsAux_no_ws t2 h2 hn2 []]
  rfl

lemma splitDashAux_dash (t : List Char) (acc : List Char) :
    splitDashAux ('-' :: t) acc = acc.reverse :: splitDashAux t [] := by
  simp [splitDashAux]

lemma splitDashAux_cons_no_dash (c : Char) (t : List Char) (acc : List Char)
    (hc : ¬ c = '-') :
    splitDashAux (c :: t) acc = splitDashAux t (c :: acc) := by
  simp [splitDashAux, hc]

lemma splitDash_all_hex (l : List Char) : ∀ acc,
    (splitDashAux l acc).all (fun p => p.all isHexDigit) = true →
    (∀ c ∈ acc, isHexDigit c = true) ∧ (∀ c ∈ l, isHexDigit c = true ∨ c = '-') := by
  induction l with
  | nil =>
    intro acc h
    simp only [splitDashAux, List.all_cons, List.all_nil, Bool.and_true] at h
    rw [List.all_eq_true] at h
    refine ⟨fun c hc => h c (List.mem_reverse.mpr hc), fun c hc => absurd hc (by simp)⟩
  | cons a t ih =>
    intro acc h
    by_cases ha : a = '-'
    · subst ha
      rw [splitDashAux_dash, List.all_cons, Bool.and_eq_true] at h
      have h2 := ih [] h.2
      refine ⟨?_, ?_⟩
      · intro c hc
        exact List.all_eq_true.mp h.1 c (List.mem_reverse.mpr hc)
      · intro c hc
        rcases List.mem_cons.mp hc with rfl | hmem
        · exact Or.inr rfl
        · exact h2.2 c hmem
    · rw [splitDashAux_cons_no_dash a t acc ha] at h
      have h2 := ih (a :: acc) h
      refine ⟨?_, ?_⟩
      · intro c hc
        exact h2.1 c (List.mem_cons_of_mem a hc)
      · intro c hc
        rcases List.mem_cons.mp hc with rfl | hmem
        · exact Or.inl (h2.1 c (List.mem_cons_self c acc))
        · exact h2.2 c hmem

lemma splitDash_length (l : List Char) : ∀ acc,
    ((splitDashAux l acc).map List.length).sum + (splitDashAux l acc).length
      = l.length + acc.length + 1 := by
  induction l with
  | nil =>
    intro acc
    simp [splitDashAux]
  | cons a t ih =>
    intro acc
    by_cases ha : a = '-'
    · subst ha
      rw [splitDashAux_dash, List.map_cons, List.sum_cons, List.length_cons]
      have h0 := ih []
      simp only [List.length_nil, List.length_reverse, List.length_cons] at h0 ⊢
      omega
    · rw [splitDashAux_cons_no_dash a t acc ha]
      have h0 := ih (a :: acc)
      simp only [List.length_cons] at h0 ⊢
      omega

lemma uuid_facts (u : String) (hu : isUuid u = true) :
    (∀ c ∈ u.data, c.isWhitespace = false) ∧ u.data ≠ [] ∧ u.data.length = 36 := by
  unfold isUuid at hu
  rw [Bool.and_eq_true] at hu
  have hlen : (splitDashAux u.data []).map List.length = [8, 4, 4, 4, 12] :=
    beq_iff_eq.mp hu.1
  have hhex := splitDash_all_hex u.data [] hu.2
  have hl0 := splitDash_length u.data []
  rw [hlen] at hl0
  have hcount : (splitDashAux u.data []).length = 5 := by
    have h1 := congrArg List.length hlen
    simpa using h1
  rw [hcount] at hl0
  have hsum : ([8, 4, 4, 4, 12] : List Nat).sum = 32 := by decide
  rw [hsum] at hl0
  simp only [List.length_nil] at hl0
  have hulen : u.data.length = 36 := by omega
  refine ⟨?_, ?_, hulen⟩
  · intro c hc
    rcases hhex.2 c hc with hx | rfl
    · exact char_hex_not_ws c hx
    · decide
  · intro hnil
    rw [hnil] at hulen
    exact absurd hulen (by decide)

lemma token_facts_of_lower_eq (tok : String) (k : List Char)
    (hk : tok.data.map Char.toLower = k)
    (hns : ∀ c ∈ k, c.isWhitespace = false) (hne : k ≠ []) :
    (∀ c ∈ tok.data, c.isWhitespace = false) ∧ tok.data ≠ [] := by
  constructor
  · intro c hc
    by_contra hcw
    have hcw' : c.isWhitespace = true := by simpa using hcw
    have h1 : c.toLower = c := toLower_ws_fixed c hcw'
    have h2 : c.toLower ∈ k := by
      rw [← hk]
      exact List.mem_map.mpr ⟨c, hc, rfl⟩
    rw [h1] at h2
    have h3 := hns c h2
    rw [hcw'] at h3
    exact Bool.noConfusion h3
  · intro hnil
    apply hne
    rw [← hk, hnil]
    rfl

lemma alias_token_facts (tok : String) (d : ExecApprovalDecision)
    (h : decisionAlias (lowerStr tok) = some d) :
    (∀ c ∈ tok.data, c.isWhitespace = false) ∧ tok.data ≠ [] := by
  unfold decisionAlias at h
  split_ifs at h with h1 h2 h3 h4 h5 h6 h7 h8 h9 h10
  · exact token_facts_of_lower_eq tok _ (congrArg String.data h1) (by decide) (by decide)
  · exact token_facts_of_lower_eq tok _ (congrArg String.data h2) (by decide) (by decide)
  · exact token_facts_of_lower_eq tok _ (congrArg String.data h3) (by decide) (by decide)
  · exact token_facts_of_lower_eq tok _ (congrArg String.data h4) (by decide) (by decide)
  · exact token_facts_of_lower_eq tok _ (congrArg String.data h5) (by decide) (by decide)
  · exact token_facts_of_lower_eq tok _ (congrArg String.data h6) (by decide) (by decide)
  · exact token_facts_of_lower_eq tok _ (congrArg String.data h7) (by decide) (by decide)
  · exact token_facts_of_lower_eq tok _ (congrArg String.data h8) (by decide) (by decide)
  · exact token_facts_of_lower_eq tok _ (congrArg String.data h9) (by decide) (by decide)
  · exact token_facts_of_lower_eq tok _ (congrArg String.data h10) (by decide) (by decide)

lemma decisionAlias_none_of_long (s : String) (h : 12 < s.data.length) :
    decisionAlias s = none := by
  have hA : ¬ s = "allow" := fun he => absurd (he ▸ h) (by decide)
  have hB : ¬ s = "once" := fun he => absurd (he ▸ h) (by decide)
  have hC : ¬ s = "allow-once" := fun he => absurd (he ▸ h) (by decide)
  have hD : ¬ s = "allowonce" := fun he => absurd (he ▸ h) (by decide)
  have hE : ¬ s = "always" := fun he => absurd (he ▸ h) (by decide)
  have hF : ¬ s = "allow-always" := fun he => absurd (he ▸ h) (by decide)
  have hG : ¬ s = "allowalways" := fun he => absurd (he ▸ h) (by decide)
  have hH : ¬ s = "deny" := fun he => absurd (he ▸ h) (by decide)
  have hI : ¬ s = "reject" := fun he => absurd (he ▸ h) (by decide)
  have hJ : ¬ s = "block" := fun he => absurd (he ▸ h) (by decide)
  unfold decisionAlias
  rw [if_neg hA, if_neg hB, if_neg hC, if_neg hD, if_neg hE, if_neg hF, if_neg hG,
    if_neg hH, if_neg hI, if_neg hJ]

lemma parseApprovalId_of_uuid (u : String) (hu : isUuid u = true) :
    parseApprovalId u = some u := by
  obtain ⟨hnws, hne, hlen⟩ := uuid_facts u hu
  have ht : jsTrim u = u := by
    unfold jsTrim
    rw [trimChars_eq_self u.data (fun c hc => hnws c (mem_of_head? hc))
      (fun c hc => hnws c (mem_of_getLast? hc))]
  unfold parseApprovalId
  rw [ht]
  rw [if_neg (fun he => hne (congrArg String.data he)), if_pos hu]

lemma head_not_ws_append (l1 l2 : List Char)
    (h1 : ∀ c, l1.head? = some c → c.isWhitespace = false) (hne1 : l1 ≠ []) :
    ∀ c, (l1 ++ l2).head? = some c → c.isWhitespace = false := by
  intro c hc
  cases hl : l1 with
  | nil => exact absurd hl hne1
  | cons a t =>
    subst hl
    rw [List.cons_append] at hc
    rw [show (a :: (t ++ l2)).head? = some a from rfl] at hc
    injection hc with hc
    subst hc
    exact h1 a rfl

lemma getLast_not_ws_append (l1 l2 : List Char)
    (h2 : ∀ c, l2.getLast? = some c → c.isWhitespace = false) (hne2 : l2 ≠ []) :
    ∀ c, (l1 ++ l2).getLast? = some c → c.isWhitespace = false := by
  intro c hc
  rw [List.getLast?_append] at hc
  cases hgl : l2.getLast? with
  | none => exact absurd (List.getLast?_eq_none_iff.mp hgl) hne2
  | some c2 =>
    rw [hgl] at hc
    rw [show (Option.some c2).or l1.getLast? = some c2 from rfl] at hc
    injection hc with hc
    subst hc
    exact h2 c2 hgl

lemma parseApprove_textcmd (body : List Char)
    (hne : body ≠ [])
    (hhead : ∀ c, body.head? = some c → c.isWhitespace = false)
    (hlast : ∀ c, body.getLast? = some c → c.isWhitespace = false) :
    parseApproveCommand ⟨"approve ".data ++ body⟩
      = parseApproveTokens (splitWsTokens ⟨body⟩) := by
  have htrim : trimChars ("approve ".data ++ body) = "approve ".data ++ body := by
    apply trimChars_eq_self
    · intro c hc
      rw [show ("approve ".data ++ body).head? = some 'a' from rfl] at hc
      injection hc with hc
      subst hc
      decide
    · exact getLast_not_ws_append "approve ".data body hlast hne
  have e1 : jsTrim ⟨"approve ".data ++ body⟩ = ⟨"approve ".data ++ body⟩ :=
    congrArg String.mk htrim
  have hmap : ("approve ".data ++ body).map Char.toLower
      = "approve ".data ++ body.map Char.toLower := by
    rw [List.map_append]
    rw [show ("approve ".data).map Char.toLower = "approve ".data from by decide]
  have hld : (lowerStr ⟨"approve ".data ++ body⟩).data
      = "approve ".data ++ body.map Char.toLower := hmap
  have b1 : ¬ ("/approve".data <+: (lowerStr ⟨"approve ".data ++ body⟩).data) := by
    intro hcon
    rw [hld] at hcon
    obtain ⟨t, ht⟩ := hcon
    have hh := congrArg List.head? ht
    rw [show ("/approve".data ++ t).head? = some '/' from rfl] at hh
    rw [show ("approve ".data ++ body.map Char.toLower).head? = some 'a' from rfl] at hh
    injection hh with hh
    exact absurd hh (by decide)
  have b2 : ¬ ("/accept".data <+: (lowerStr ⟨"approve ".data ++ body⟩).data) := by
    intro hcon
    rw [hld] at hcon
    obtain ⟨t, ht⟩ := hcon
    have hh := congrArg List.head? ht
    rw [show ("/accept".data ++ t).head? = some '/' from rfl] at hh
    rw [show ("approve ".data ++ body.map Char.toLower).head? = some 'a' from rfl] at hh
    injection hh with hh
    exact absurd hh (by decide)
  have b3 : "approve ".data <+: (lowerStr ⟨"approve ".data ++ body⟩).data := by
    rw [hld]
    exact ⟨body.map Char.toLower, rfl⟩
  have e3 : jsTrim (dropStr ⟨"approve ".data ++ body⟩ ("approve".data.length)) = ⟨body⟩ := by
    show (⟨trimChars (' ' :: body)⟩ : String) = ⟨body⟩
    rw [trimChars_cons_ws ' ' body (by decide), trimChars_eq_self body hhead hlast]
  have e4 : (⟨body⟩ : String) ≠ "" := fun he => hne (congrArg String.data he)
  unfold parseApproveCommand
  dsimp only
  rw [e1]
  rw [if_neg b1, if_neg b2, if_pos (Or.inr b3)]
  dsimp only
  rw [e3]
  rw [if_neg e4]

lemma parseApproveTokens_one (u : String) (hu : isUuid u = true) :
    parseApproveTokens [u] = ParsedApprove.parsed u ExecApprovalDecision.allowOnce := by
  simp only [parseApproveTokens]
  rw [parseApprovalId_of_uuid u hu]

lemma parseApproveTokens_alias_id (tok u : String) (d : ExecApprovalDecision)
    (ha : decisionAlias (lowerStr tok) = some d) (hu : isUuid u = true) :
    parseApproveTokens [tok, u] = ParsedApprove.parsed u d := by
  simp only [parseApproveTokens]
  rw [ha, parseApprovalId_of_uuid u hu]

lemma parseApproveTokens_id_alias (tok u : String) (d : ExecApprovalDecision)
    (ha : decisionAlias (lowerStr tok) = some d) (hu : isUuid u = true) :
    parseApproveTokens [u, tok] = ParsedApprove.parsed u d := by
  simp only [parseApproveTokens]
  have hlen : 12 < (lowerStr u).data.length := by
    have h36 := (uuid_facts u hu).2.2
    show 12 < (u.data.map Char.toLower).length
    rw [List.length_map, h36]
    omega
  rw [decisionAlias_none_of_long (lowerStr u) hlen, ha, parseApprovalId_of_uuid u hu]

/-- C10: a chat approve command "approve <id>" with a valid full UUID id and no
decision token parses with the decision silently defaulting to allow-once; a
decision-alias token may appear on either side of the id; and the aliases
"allow", "once", "always", "reject" and "block" map onto the three canonical
decision tags. -/
theorem chat_approve_decision_aliases (u tok : String) (d : ExecApprovalDecision)
    (hu : isUuid u = true)
    (ha : decisionAlias (lowerStr tok) = some d) :
    parseApproveCommand ("approve " ++ u)
      = ParsedApprove.parsed u ExecApprovalDecision.allowOnce
    ∧ parseApproveCommand ("approve " ++ tok ++ " " ++ u) = ParsedApprove.parsed u d
    ∧ parseApproveCommand ("approve " ++ u ++ " " ++ tok) = ParsedApprove.parsed u d
    ∧ decisionAlias "allow" = some ExecApprovalDecision.allowOnce
    ∧ decisionAlias "once" = some ExecApprovalDecision.allowOnce
    ∧ decisionAlias "always" = some ExecApprovalDecision.allowAlways
    ∧ decisionAlias "reject" = some ExecApprovalDecision.deny
    ∧ decisionAlias "block" = some ExecApprovalDecision.deny := by
  obtain ⟨hunws, hune, hulen⟩ := uuid_facts u hu
  obtain ⟨htnws, htne⟩ := alias_token_facts tok d ha
  refine ⟨?_, ?_, ?_, by decide, by decide, by decide, by decide, by decide⟩
  · have hstr : ("approve " ++ u : String) = ⟨"approve ".data ++ u.data⟩ :=
      String.ext (String.data_append "approve " u)
    rw [hstr]
    rw [parseApprove_textcmd u.data hune
      (fun c hc => hunws c (mem_of_head? hc))
      (fun c hc => hunws c (mem_of_getLast? hc))]
    rw [splitWs_one_token u.data hunws hune]
    exact parseApproveTokens_one u hu
  · have hstr : ("approve " ++ tok ++ " " ++ u : String)
        = ⟨"approve ".data ++ (tok.data ++ ' ' :: u.data)⟩ := by
      apply String.ext
      rw [String.data_append, String.data_append, String.data_append]
      simp
    rw [hstr]
    rw [parseApprove_textcmd (tok.data ++ ' ' :: u.data)
      (fun hnil => htne (List.append_eq_nil.mp hnil).1)
      (head_not_ws_append tok.data (' ' :: u.data)
        (fun c hc => htnws c (mem_of_head? hc)) htne)
      (getLast_not_ws_append tok.data (' ' :: u.data)
        (fun c hc => ?_) (by simp))]
    · rw [splitWs_two_tokens tok.data u.data htnws hunws htne hune]
      exact parseApproveTokens_alias_id tok u d ha hu
    · cases hgl2 : u.data.getLast? with
      | none =>
        rw [show (' ' :: u.data).getLast? = u.data.getLast?.or (some ' ') from
          @List.getLast?_append Char [' '] u.data] at hc
        rw [hgl2] at hc
        exact absurd (List.getLast?_eq_none_iff.mp hgl2) hune
      | some c2 =>
        rw [show (' ' :: u.data).getLast? = u.data.getLast?.or (some ' ') from
          @List.getLast?_append Char [' '] u.data] at hc
        rw [hgl2] at hc
        injection hc with hc
        subst hc
        exact hunws c2 (mem_of_getLast? hgl2)
  · have hstr : ("approve " ++ u ++ " " ++ tok : String)
        = ⟨"approve ".data ++ (u.data ++ ' ' :: tok.data)⟩ := by
      apply String.ext
      rw [String.data_append, String.data_append, String.data_append]
      simp
    rw [hstr]
    rw [parseApprove_textcmd (u.data ++ ' ' :: tok.data)
      (fun hnil => hune (List.append_eq_nil.mp hnil).1)
      (head_not_ws_append u.data (' ' :: tok.data)
        (fun c hc => hunws c (mem_of_head? hc)) hune)
      (getLast_not_ws_append u.data (' ' :: tok.data)
        (fun c hc => ?_) (by simp))]
    · rw [splitWs_two_tokens u.data tok.data hunws htnws hune htne]
      exact parseApproveTokens_id_alias tok u d ha hu
    · cases hgl2 : tok.data.getLast? with
      | none =>
        rw [show (' ' :: tok.data).getLast? = tok.data.getLast?.or (some ' ') from
          @List.getLast?_append Char [' '] tok.data] at hc
        rw [hgl2] at hc
        exact absurd (List.getLast?_eq_none_iff.mp hgl2) htne
      | some c2 =>
        rw [show (' ' :: tok.data).getLast? = tok.data.getLast?.or (some ' ') from
          @List.getLast?_append Char [' '] tok.data] at hc
        rw [hgl2] at hc
        injection hc with hc
        subst hc
        exact htnws c2 (mem_of_getLast? hgl2)

/-- Witness for `chat_approve_decision_aliases` at concrete command strings. -/
theorem chat_approve_decision_aliases_witness :
    parseApproveCommand "approve cdc9d57c-f5fc-4cd1-8e3e-5edbe1bb5548"
      = ParsedApprove.parsed "cdc9d57c-f5fc-4cd1-8e3e-5edbe1bb5548"
          ExecApprovalDecision.allowOnce
    ∧ parseApproveCommand "approve always cdc9d57c-f5fc-4cd1-8e3e-5edbe1bb5548"
      = ParsedApprove.parsed "cdc9d57c-f5fc-4cd1-8e3e-5edbe1bb5548"
          ExecApprovalDecision.allowAlways := by
  have h := chat_approve_decision_aliases "cdc9d57c-f5fc-4cd1-8e3e-5edbe1bb5548"
    "always" ExecApprovalDecision.allowAlways (by decide) (by decide)
  exact ⟨h.1, h.2.1⟩
